import Mathlib

/-!
Verification development for the post persistence layer
(app/models/post/dynamo.py) and the followed-first-story aggregate of the
backend repository.  The Python source is shallowly embedded: DynamoDB items
become a Lean structure with optional fields, the table becomes an
association list keyed by post id, conditional updates and transactions
become explicit state passing, and index queries become filter-then-sort
over the item list, mirroring the ordered-query contract of the storage
adapter.
-/

/-- A DynamoDB attribute value as used by the key conditions of this module:
either a string or a number (ranks are real-valued; we embed them as
rationals). -/
inductive AttrV where
  | s (v : String)
  | n (v : Rat)
  deriving DecidableEq, Repr

/-- Boolean comparison on attribute values: strings are ordered by their
character lists (codepoint lexicographic order, matching the string order
used by the store), numbers numerically; all strings sort before all
numbers so that the relation is total (the two kinds never meet inside one
index partition). -/
def AttrV.leB : AttrV → AttrV → Bool
  | .s a, .s b => decide (a.data ≤ b.data)
  | .s _, .n _ => true
  | .n _, .s _ => false
  | .n a, .n b => decide (a ≤ b)

/-- Strict string order used by the embedding, on character lists. -/
def strLt (a b : String) : Prop := a.data < b.data

/-- Non-strict string order used by the embedding, on character lists. -/
def strLe (a b : String) : Prop := a.data ≤ b.data

instance (a b : String) : Decidable (strLt a b) := by
  unfold strLt; infer_instance

instance (a b : String) : Decidable (strLe a b) := by
  unfold strLe; infer_instance

/-- A text tag: the pair of tag and userId, as stored in the textTags list
attribute. -/
structure TextTag where
  tag : String
  userId : String
  deriving DecidableEq, Repr

/-- A timestamp as the embedding sees it: the source only ever uses the
iso8601 string of a pendulum instant, its calendar date and its time of
day, so we carry the date part and the time-of-day part as strings. -/
structure Ts where
  date : String
  time : String
  deriving DecidableEq, Repr

/-- The iso8601 rendering of a timestamp: date, separator, time of day. -/
def Ts.iso (t : Ts) : String := t.date ++ "T" ++ t.time

/-- The canonical post record, with one Lean field per DynamoDB attribute
written by the functions of app/models/post/dynamo.py.  Optional fields
model attribute presence. -/
structure PostItem where
  schemaVersion : Nat
  partitionKey : String
  sortKey : String
  postId : String
  postedAt : String
  postedByUserId : String
  postType : String
  postStatus : String
  expiresAt : Option String
  albumId : Option String
  text : Option String
  textTags : Option (List TextTag)
  commentsDisabled : Option Bool
  likesDisabled : Option Bool
  sharingDisabled : Option Bool
  verificationHidden : Option Bool
  checksum : Option String
  originalPostId : Option String
  flagCount : Option Int
  onymousLikeCount : Option Int
  anonymousLikeCount : Option Int
  commentCount : Option Int
  viewedByCount : Option Int
  hasNewCommentActivity : Option Bool
  gsiA1PartitionKey : Option String
  gsiA1SortKey : Option String
  gsiA2PartitionKey : String
  gsiA2SortKey : String
  gsiA3PartitionKey : String
  gsiA3SortKey : String
  gsiK1PartitionKey : Option String
  gsiK1SortKey : Option String
  gsiK2PartitionKey : Option String
  gsiK2SortKey : Option String
  gsiK3PartitionKey : Option String
  gsiK3SortKey : Option Rat
  deriving DecidableEq, Repr

/-- Attribute lookup by DynamoDB attribute name, for the attributes that
appear in key condition expressions of the source. -/
def PostItem.attr (it : PostItem) : String → Option AttrV
  | "partitionKey" => some (.s it.partitionKey)
  | "sortKey" => some (.s it.sortKey)
  | "postId" => some (.s it.postId)
  | "gsiA1PartitionKey" => it.gsiA1PartitionKey.map .s
  | "gsiA1SortKey" => it.gsiA1SortKey.map .s
  | "gsiA2PartitionKey" => some (.s it.gsiA2PartitionKey)
  | "gsiA2SortKey" => some (.s it.gsiA2SortKey)
  | "gsiA3PartitionKey" => some (.s it.gsiA3PartitionKey)
  | "gsiA3SortKey" => some (.s it.gsiA3SortKey)
  | "gsiK1PartitionKey" => it.gsiK1PartitionKey.map .s
  | "gsiK1SortKey" => it.gsiK1SortKey.map .s
  | "gsiK2PartitionKey" => it.gsiK2PartitionKey.map .s
  | "gsiK2SortKey" => it.gsiK2SortKey.map .s
  | "gsiK3PartitionKey" => it.gsiK3PartitionKey.map .s
  | "gsiK3SortKey" => it.gsiK3SortKey.map .n
  | _ => none

/-- Python truthiness of an optional string argument: present and
non-empty. -/
def optTruthy : Option String → Bool
  | some s => !(s == "")
  | none => false

-- The PostStatus enum of app/models/post/enums.py (referenced by the
-- source; values are the status names).
namespace PostStatus

def PENDING : String := "PENDING"

def PROCESSING : String := "PROCESSING"

def COMPLETED : String := "COMPLETED"

def ARCHIVED : String := "ARCHIVED"

def DELETING : String := "DELETING"

def ERROR : String := "ERROR"

/-- All the statuses of the lifecycle enum. -/
def all : List String := [PENDING, PROCESSING, COMPLETED, ARCHIVED, DELETING, ERROR]

end PostStatus

-- The LikeStatus enum of app/models/like/enums.py as used by the like
-- counter functions.
namespace LikeStatus

def ONYMOUSLY_LIKED : String := "ONYMOUSLY_LIKED"

def ANONYMOUSLY_LIKED : String := "ANONYMOUSLY_LIKED"

end LikeStatus

/-- The table: an association list from post id to canonical record.
The key of a binding is the post id component of the partition key. -/
abbrev Store := List (String × PostItem)

/-- Point read of a canonical record. -/
def Store.get (s : Store) (k : String) : Option PostItem := List.lookup k s

/-- Write of a canonical record: the new binding shadows and removes any
previous binding of the same key, so keys stay unique. -/
def Store.put (s : Store) (k : String) (v : PostItem) : Store :=
  (k, v) :: List.filter (fun p => !(p.1 == k)) s

/-- All current records of the table. -/
def Store.values (s : Store) : List PostItem := s.map Prod.snd

/-- Store well-formedness: every binding is keyed by the post id of its
record. -/
def Store.Wf (s : Store) : Prop := ∀ p ∈ s, (Prod.snd p).postId = Prod.fst p

instance (s : Store) : Decidable s.Wf := by
  unfold Store.Wf; infer_instance

/-- One comparison of a boto3 Key(...) condition as built by the source. -/
inductive KeyOp where
  | eqS (v : String)
  | ltS (v : String)
  | beginsW (v : String)
  | eqN (v : Rat)
  | gtN (v : Rat)
  deriving DecidableEq, Repr

/-- One conjunct of a KeyConditionExpression: an attribute name and the
comparison applied to it. -/
structure KeyCond where
  attr : String
  op : KeyOp
  deriving DecidableEq, Repr

/-- Evaluation of one key condition against an item.  An absent attribute
satisfies nothing.  The begins_with comparison is prefix on character
lists. -/
def KeyCond.eval (c : KeyCond) (it : PostItem) : Bool :=
  match it.attr c.attr, c.op with
  | some (.s a), .eqS v => a == v
  | some (.s a), .ltS v => decide (a.data < v.data)
  | some (.s a), .beginsW v => decide (v.data <+: a.data)
  | some (.n a), .eqN v => a == v
  | some (.n a), .gtN v => decide (v < a)
  | _, _ => false

/-- A global secondary index is named by its partition key attribute and
its sort key attribute. -/
structure Gsi where
  pk : String
  sk : String
  deriving DecidableEq, Repr

def GSI_A1 : Gsi := ⟨"gsiA1PartitionKey", "gsiA1SortKey"⟩

def GSI_A2 : Gsi := ⟨"gsiA2PartitionKey", "gsiA2SortKey"⟩

def GSI_K1 : Gsi := ⟨"gsiK1PartitionKey", "gsiK1SortKey"⟩

def GSI_K2 : Gsi := ⟨"gsiK2PartitionKey", "gsiK2SortKey"⟩

def GSI_K3 : Gsi := ⟨"gsiK3PartitionKey", "gsiK3SortKey"⟩

/-- An item belongs to a sparse index exactly when both its key attributes
are present. -/
def inGsi (g : Gsi) (it : PostItem) : Bool :=
  (it.attr g.pk).isSome && (it.attr g.sk).isSome

/-- The sort key value of an item in an index; only meaningful when the
item is in the index. -/
def skOf (g : Gsi) (it : PostItem) : Option AttrV := it.attr g.sk

/-- Query order of the storage adapter: ascending by sort key value. -/
def skRel (g : Gsi) (a b : PostItem) : Prop :=
  AttrV.leB ((skOf g a).getD (.s "")) ((skOf g b).getD (.s "")) = true

instance (g : Gsi) : DecidableRel (skRel g) := by
  unfold skRel; infer_instance

instance (g : Gsi) : IsTotal PostItem (skRel g) := by
  constructor
  intro a b
  unfold skRel AttrV.leB
  rcases (skOf g a).getD (.s "") with v | v <;> rcases (skOf g b).getD (.s "") with w | w <;> simp
  · exact le_total v.data w.data
  · exact le_total v w

instance (g : Gsi) : IsTrans PostItem (skRel g) := by
  constructor
  intro a b c
  unfold skRel AttrV.leB
  rcases (skOf g a).getD (.s "") with v | v <;> rcases (skOf g b).getD (.s "") with w | w <;>
    rcases (skOf g c).getD (.s "") with x | x <;> simp
  · exact le_trans
  · exact le_trans

/-- The storage adapter query contract over a secondary index: the items of
the table that are in the index and satisfy every conjunct of the key
condition, and then the filter expression, returned ordered ascending by
sort key. -/
def Store.query (s : Store) (g : Gsi) (conds : List KeyCond) (filt : PostItem → Bool) :
    List PostItem :=
  List.insertionSort (skRel g)
    ((s.values.filter (fun it => inGsi g it && conds.all (fun c => c.eval it))).filter filt)

/-- Errors of the embedding: the Python exceptions raised by the module
(assertion errors are the fail-fast input validation) together with the
failures signalled by the storage adapter. -/
inductive Err where
  | assertionError (msg : String)
  | postDoesNotExist (postId : String)
  | postException (msg : String)
  | conditionalCheckFailed
  | transactionCanceled
  deriving DecidableEq, Repr

/-- One item of a transactWriteItems call: a conditional insert or a
conditional update.  Every update of this module carries the condition
attribute_exists(partitionKey), represented by requiring the record to be
present; the extra condition of the item is the cond field. -/
inductive TransactItem where
  | put (key : String) (item : PostItem)
  | update (key : String) (cond : PostItem → Bool) (upd : PostItem → PostItem)

/-- Run one transaction item against the store; none means its precondition
failed. -/
def runTransactItem (s : Store) : TransactItem → Option Store
  | .put k item =>
    match s.get k with
    | none => some (s.put k item)
    | some _ => none
  | .update k cond upd =>
    match s.get k with
    | some it => if cond it then some (s.put k (upd it)) else none
    | none => none

/-- All-or-nothing transactWriteItems: on any precondition failure the
store is returned unchanged together with a TransactionCanceled error. -/
def transactWriteItems (s : Store) (items : List TransactItem) : Store × Option Err :=
  match go s items with
  | some s2 => (s2, none)
  | none => (s, some .transactionCanceled)
where
  go : Store → List TransactItem → Option Store
    | s2, [] => some s2
    | s2, i :: rest =>
      match runTransactItem s2 i with
      | some s3 => go s3 rest
      | none => none

/-- Auxiliary recursion for splitChar: current reversed chunk and the rest
of the characters. -/
def splitCharAux (sep : Char) : List Char → List Char → List String
  | [], acc => [String.mk acc.reverse]
  | c :: rest, acc =>
    if c = sep then String.mk acc.reverse :: splitCharAux sep rest []
    else splitCharAux sep rest (c :: acc)

/-- Python str.split with a one-character separator, over the character
list of the string. -/
def splitChar (sep : Char) (s : String) : List String :=
  splitCharAux sep s.data []

/-- Modelled from the spec: the dynamo client wrapper (its source is not
under src) runs update_item with the condition
attribute_exists(partitionKey) on top of any per-call condition, so every
mutating operation fails when the canonical record is absent (spec section
4.1 and section 7, NotFound), surfacing ConditionalCheckFailed, and the
store is unchanged on failure. -/
def clientUpdateItem (s : Store) (key : String) (cond : PostItem → Bool)
    (upd : PostItem → PostItem) : Store × Except Err PostItem :=
  match s.get key with
  | none => (s, .error .conditionalCheckFailed)
  | some it =>
    if cond it then (s.put key (upd it), .ok (upd it))
    else (s, .error .conditionalCheckFailed)

namespace PostDynamo

/-- The get_post point read of dynamo.py. -/
def get_post (s : Store) (post_id : String) : Option PostItem := s.get post_id

/-- transact_add_pending_post of dynamo.py: builds the conditional insert
of a new PENDING canonical record with all derived index keys. -/
def transact_add_pending_post (posted_by_user_id post_id post_type : String) (posted_at : Ts)
    (expires_at : Option Ts) (album_id : Option String) (text : Option String)
    (text_tags : Option (List TextTag)) (comments_disabled likes_disabled sharing_disabled
    verification_hidden : Option Bool) : TransactItem :=
  let posted_at_str := posted_at.iso
  let it0 : PostItem :=
    { schemaVersion := 3
      partitionKey := "post/" ++ post_id
      sortKey := "-"
      postId := post_id
      postedAt := posted_at_str
      postedByUserId := posted_by_user_id
      postType := post_type
      postStatus := PostStatus.PENDING
      expiresAt := none, albumId := none, text := none, textTags := none
      commentsDisabled := none, likesDisabled := none, sharingDisabled := none
      verificationHidden := none, checksum := none, originalPostId := none
      flagCount := none, onymousLikeCount := none, anonymousLikeCount := none
      commentCount := none, viewedByCount := none, hasNewCommentActivity := none
      gsiA1PartitionKey := none, gsiA1SortKey := none
      gsiA2PartitionKey := "post/" ++ posted_by_user_id
      gsiA2SortKey := PostStatus.PENDING ++ "/" ++ posted_at_str
      gsiA3PartitionKey := "post/" ++ posted_by_user_id
      gsiA3SortKey := PostStatus.PENDING ++ "/" ++ post_type ++ "/" ++ posted_at_str
      gsiK1PartitionKey := none, gsiK1SortKey := none
      gsiK2PartitionKey := none, gsiK2SortKey := none
      gsiK3PartitionKey := none, gsiK3SortKey := none }
  let it1 :=
    match expires_at with
    | some ea =>
      { it0 with
        expiresAt := some ea.iso
        gsiA1PartitionKey := some ("post/" ++ posted_by_user_id)
        gsiA1SortKey := some (PostStatus.PENDING ++ "/" ++ ea.iso)
        gsiK1PartitionKey := some ("post/" ++ ea.date)
        gsiK1SortKey := some ea.time }
    | none => it0
  let it2 :=
    if optTruthy album_id then
      { it1 with
        albumId := album_id
        gsiK3PartitionKey := some ("post/" ++ album_id.getD "")
        gsiK3SortKey := some (-1) }
    else it1
  let it3 := if optTruthy text then { it2 with text := text } else it2
  let it4 :=
    match text_tags with
    | some tt => { it3 with textTags := some tt }
    | none => it3
  let it5 :=
    match comments_disabled with
    | some b => { it4 with commentsDisabled := some b }
    | none => it4
  let it6 :=
    match likes_disabled with
    | some b => { it5 with likesDisabled := some b }
    | none => it5
  let it7 :=
    match sharing_disabled with
    | some b => { it6 with sharingDisabled := some b }
    | none => it6
  let it8 :=
    match verification_hidden with
    | some b => { it7 with verificationHidden := some b }
    | none => it7
  .put post_id it8

/-- get_next_completed_post_to_expire of dynamo.py: first item of the
GSI-A1 query for the owner restricted to sort keys beginning with the
COMPLETED status, optionally filtering out one post id. -/
def get_next_completed_post_to_expire (s : Store) (user_id : String)
    (exclude_post_id : Option String) : Option PostItem :=
  let conds : List KeyCond :=
    [⟨"gsiA1PartitionKey", .eqS ("post/" ++ user_id)⟩,
     ⟨"gsiA1SortKey", .beginsW (PostStatus.COMPLETED ++ "/")⟩]
  let filt : PostItem → Bool := fun it =>
    if optTruthy exclude_post_id then !(it.postId == exclude_post_id.getD "") else true
  (s.query GSI_A1 conds filt).head?

/-- generate_expired_post_pks_by_day of dynamo.py: the GSI-K1 query for one
calendar day, restricted to sort keys (times of day) below the cut off
when one is given, projected to the primary key pairs. -/
def generate_expired_post_pks_by_day (s : Store) (date : String) (cut_off_time : Option String) :
    List (String × String) :=
  let key_conditions : List KeyCond :=
    [⟨"gsiK1PartitionKey", .eqS ("post/" ++ date)⟩] ++
      (match cut_off_time with
       | some t => [⟨"gsiK1SortKey", .ltS t⟩]
       | none => [])
  (s.query GSI_K1 key_conditions (fun _ => true)).map (fun it => (it.partitionKey, it.sortKey))

/-- transact_increment_flag_count of dynamo.py. -/
def transact_increment_flag_count (post_id : String) : TransactItem :=
  .update post_id (fun _ => true)
    (fun it => { it with flagCount := some (it.flagCount.getD 0 + 1) })

/-- transact_decrement_flag_count of dynamo.py: the condition requires the
stored flagCount attribute to be present and above zero. -/
def transact_decrement_flag_count (post_id : String) : TransactItem :=
  .update post_id
    (fun it =>
      match it.flagCount with
      | some n => decide (0 < n)
      | none => false)
    (fun it => { it with flagCount := some (it.flagCount.getD 0 - 1) })

/-- The update expression of transact_set_post_status, as the function it
applies to the stored record: sets postStatus and the A2 and A3 sort keys,
then originalPostId when supplied, the album rank sort key when the
in-memory record has an album, and the A1 sort key when it has an
expiry. -/
def statusSetUpd (post_item : PostItem) (status : String) (original_post_id : Option String)
    (rank : Rat) (it : PostItem) : PostItem :=
  let it1 :=
    { it with
      postStatus := status
      gsiA2SortKey := status ++ "/" ++ post_item.postedAt
      gsiA3SortKey := status ++ "/" ++ post_item.postType ++ "/" ++ post_item.postedAt }
  let it2 :=
    if optTruthy original_post_id then { it1 with originalPostId := original_post_id }
    else it1
  let it3 := if optTruthy post_item.albumId then { it2 with gsiK3SortKey := some rank } else it2
  match post_item.expiresAt with
  | some ea => { it3 with gsiA1SortKey := some (status ++ "/" ++ ea) }
  | none => it3

/-- transact_set_post_status of dynamo.py: fails fast when the presence of
album_rank does not match completing a post that is in an album; otherwise
produces the conditional update recomputing the status denormalizations. -/
def transact_set_post_status (post_item : PostItem) (status : String)
    (original_post_id : Option String) (album_rank : Option Rat) : Except Err TransactItem :=
  let album_id := post_item.albumId
  if album_rank.isSome != (optTruthy album_id && status == PostStatus.COMPLETED) then
    .error (.assertionError "album_rank must be specified only when completing a post in an album")
  else
    let rank := album_rank.getD (-1)
    .ok (.update post_item.postId (fun _ => true)
      (statusSetUpd post_item status original_post_id rank))

/-- increment_viewed_by_count of dynamo.py: an update through the client
wrapper; a ConditionalCheckFailed on the absent record is re-raised as
PostDoesNotExist. -/
def increment_viewed_by_count (s : Store) (post_id : String) : Store × Except Err PostItem :=
  match clientUpdateItem s post_id (fun _ => true)
      (fun it => { it with viewedByCount := some (it.viewedByCount.getD 0 + 1) }) with
  | (s2, .ok it) => (s2, .ok it)
  | (s2, .error .conditionalCheckFailed) => (s2, .error (.postDoesNotExist post_id))
  | (s2, .error e) => (s2, .error e)

/-- The update expression the set method of dynamo.py builds, as a
function on the stored record: the empty string for text removes text and
textTags together, a non-empty text is set and carries textTags along when
supplied, and each supplied flag is set. -/
def postEditUpd (text : Option String) (text_tags : Option (List TextTag))
    (comments_disabled likes_disabled sharing_disabled verification_hidden : Option Bool)
    (it : PostItem) : PostItem :=
  let it1 :=
    match text with
    | some t =>
      if t == "" then { it with text := none, textTags := none }
      else
        let a := { it with text := some t }
        match text_tags with
        | some tt => { a with textTags := some tt }
        | none => a
    | none => it
  let it2 :=
    match comments_disabled with
    | some b => { it1 with commentsDisabled := some b }
    | none => it1
  let it3 :=
    match likes_disabled with
    | some b => { it2 with likesDisabled := some b }
    | none => it2
  let it4 :=
    match sharing_disabled with
    | some b => { it3 with sharingDisabled := some b }
    | none => it3
  match verification_hidden with
  | some b => { it4 with verificationHidden := some b }
  | none => it4

/-- The multi-field post edit (the set method of dynamo.py): requires at
least one editable field, deletes text and textTags together when text is
the empty string, and only touches textTags alongside a non-empty text. -/
def set (s : Store) (post_id : String) (text : Option String)
    (text_tags : Option (List TextTag)) (comments_disabled likes_disabled sharing_disabled
    verification_hidden : Option Bool) : Store × Except Err PostItem :=
  if text.isNone && comments_disabled.isNone && likes_disabled.isNone &&
      sharing_disabled.isNone && verification_hidden.isNone then
    (s, .error (.assertionError "Action-less post edit requested"))
  else
    clientUpdateItem s post_id (fun _ => true)
      (postEditUpd text text_tags comments_disabled likes_disabled sharing_disabled
        verification_hidden)

/-- The update expression of set_checksum as a function on the stored
record. -/
def checksumUpd (posted_at_str : String) (checksum : Option String) (it : PostItem) : PostItem :=
  { it with
    checksum := checksum
    gsiK2PartitionKey := some ("postChecksum/" ++ checksum.getD "")
    gsiK2SortKey := some posted_at_str }

/-- set_checksum of dynamo.py: rejects an absent or empty checksum, then
sets the checksum attribute and the GSI-K2 lookup keys. -/
def set_checksum (s : Store) (post_id posted_at_str : String) (checksum : Option String) :
    Store × Except Err PostItem :=
  if !(optTruthy checksum) then (s, .error (.assertionError "checksum required"))
  else
    clientUpdateItem s post_id (fun _ => true) (checksumUpd posted_at_str checksum)

/-- get_first_with_checksum of dynamo.py: head of the GSI-K2 query for the
checksum partition, returning the post id parsed from the partition key
and the postedAt sort key. -/
def get_first_with_checksum (s : Store) (checksum : String) : Option String × Option String :=
  let keys := (s.query GSI_K2 [⟨"gsiK2PartitionKey", .eqS ("postChecksum/" ++ checksum)⟩]
    (fun _ => true)).head?
  match keys with
  | some it => ((splitChar '/' it.partitionKey)[1]?, it.gsiK2SortKey)
  | none => (none, none)

/-- The update expression of set_expires_at as a function on the stored
record. -/
def expiryUpd (post_item : PostItem) (expires_at : Ts) (it : PostItem) : PostItem :=
  { it with
    expiresAt := some expires_at.iso
    gsiA1PartitionKey := some ("post/" ++ post_item.postedByUserId)
    gsiA1SortKey := some (post_item.postStatus ++ "/" ++ expires_at.iso)
    gsiK1PartitionKey := some ("post/" ++ expires_at.date)
    gsiK1SortKey := some expires_at.time }

/-- The update expression of remove_expires_at as a function on the stored
record. -/
def expiryClear (it : PostItem) : PostItem :=
  { it with
    expiresAt := none
    gsiA1PartitionKey := none
    gsiA1SortKey := none
    gsiK1PartitionKey := none
    gsiK1SortKey := none }

/-- set_expires_at of dynamo.py: conditioned on the stored postStatus still
matching the in-memory record, updates expiresAt and the GSI-A1 and GSI-K1
projections. -/
def set_expires_at (s : Store) (post_item : PostItem) (expires_at : Ts) :
    Store × Except Err PostItem :=
  clientUpdateItem s post_item.postId (fun it => it.postStatus == post_item.postStatus)
    (expiryUpd post_item expires_at)

/-- remove_expires_at of dynamo.py: removes expiresAt and the GSI-A1 and
GSI-K1 projections. -/
def remove_expires_at (s : Store) (post_id : String) : Store × Except Err PostItem :=
  clientUpdateItem s post_id (fun _ => true) expiryClear

/-- transact_increment_like_count of dynamo.py: the like status selects the
counter attribute; an unrecognized status raises PostException. -/
def transact_increment_like_count (post_id like_status : String) : Except Err TransactItem :=
  if like_status == LikeStatus.ONYMOUSLY_LIKED then
    .ok (.update post_id (fun _ => true)
      (fun it => { it with onymousLikeCount := some (it.onymousLikeCount.getD 0 + 1) }))
  else if like_status == LikeStatus.ANONYMOUSLY_LIKED then
    .ok (.update post_id (fun _ => true)
      (fun it => { it with anonymousLikeCount := some (it.anonymousLikeCount.getD 0 + 1) }))
  else
    .error (.postException ("Unrecognized like status " ++ like_status))

/-- transact_decrement_like_count of dynamo.py: as the increment, with the
condition that the selected counter is present and above zero. -/
def transact_decrement_like_count (post_id like_status : String) : Except Err TransactItem :=
  if like_status == LikeStatus.ONYMOUSLY_LIKED then
    .ok (.update post_id
      (fun it =>
        match it.onymousLikeCount with
        | some n => decide (0 < n)
        | none => false)
      (fun it => { it with onymousLikeCount := some (it.onymousLikeCount.getD 0 - 1) }))
  else if like_status == LikeStatus.ANONYMOUSLY_LIKED then
    .ok (.update post_id
      (fun it =>
        match it.anonymousLikeCount with
        | some n => decide (0 < n)
        | none => false)
      (fun it => { it with anonymousLikeCount := some (it.anonymousLikeCount.getD 0 - 1) }))
  else
    .error (.postException ("Unrecognized like status " ++ like_status))

/-- transact_increment_comment_count of dynamo.py. -/
def transact_increment_comment_count (post_id : String) : TransactItem :=
  .update post_id (fun _ => true)
    (fun it => { it with commentCount := some (it.commentCount.getD 0 + 1) })

/-- transact_decrement_comment_count of dynamo.py: condition commentCount
present and above zero. -/
def transact_decrement_comment_count (post_id : String) : TransactItem :=
  .update post_id
    (fun it =>
      match it.commentCount with
      | some n => decide (0 < n)
      | none => false)
    (fun it => { it with commentCount := some (it.commentCount.getD 0 - 1) })

/-- The update expression of transact_set_album_id for a non-null album,
as a function on the stored record. -/
def albumSetUpd (album_id : Option String) (rank : Rat) (it : PostItem) : PostItem :=
  { it with
    albumId := album_id
    gsiK3PartitionKey := some ("post/" ++ album_id.getD "")
    gsiK3SortKey := some rank }

/-- The update expression of transact_set_album_id for a null album: the
REMOVE of the three album attributes. -/
def albumClearUpd (it : PostItem) : PostItem :=
  { it with albumId := none, gsiK3PartitionKey := none, gsiK3SortKey := none }

/-- transact_set_album_id of dynamo.py: same album_rank presence rule as
the status setter; setting a non-null album additionally requires the
stored status to match the in-memory one, removing the album clears the
three album attributes. -/
def transact_set_album_id (post_item : PostItem) (album_id : Option String)
    (album_rank : Option Rat) : Except Err TransactItem :=
  let post_status := post_item.postStatus
  if album_rank.isSome != (optTruthy album_id && post_status == PostStatus.COMPLETED) then
    .error (.assertionError
      "album_rank must be specified only when setting album_id for a completed post")
  else
    let rank := album_rank.getD (-1)
    if optTruthy album_id then
      .ok (.update post_item.postId (fun it => it.postStatus == post_status)
        (albumSetUpd album_id rank))
    else
      .ok (.update post_item.postId (fun _ => true) albumClearUpd)

/-- transact_set_album_rank of dynamo.py: unconditional rank overwrite. -/
def transact_set_album_rank (post_id : String) (album_rank : Rat) : TransactItem :=
  .update post_id (fun _ => true) (fun it => { it with gsiK3SortKey := some album_rank })

/-- generate_post_ids_in_album of dynamo.py: rejects combining the
completed filter with the rank cursor, then queries GSI-K3 with the
matching range restriction and extracts post ids from partition keys. -/
def generate_post_ids_in_album (s : Store) (album_id : String) (completed : Option Bool)
    (after_rank : Option Rat) : Except Err (List String) :=
  if completed.isSome && after_rank.isSome then
    .error (.assertionError "Cant specify both completed and after_rank kwargs")
  else
    let key_exps : List KeyCond :=
      [⟨"gsiK3PartitionKey", .eqS ("post/" ++ album_id)⟩] ++
        (if completed == some true then [⟨"gsiK3SortKey", .gtN (-1)⟩] else []) ++
        (if completed == some false then [⟨"gsiK3SortKey", .eqN (-1)⟩] else []) ++
        (match after_rank with
         | some r => [⟨"gsiK3SortKey", .gtN r⟩]
         | none => [])
    .ok ((s.query GSI_K3 key_exps (fun _ => true)).map
      (fun it => ((splitChar '/' it.partitionKey)[1]?).getD ""))

end PostDynamo

namespace FfsManager

/-- Modelled from the spec: the candidate derivation inside
refresh_after_story_change of the followed-first-story manager, whose
source is not under src (spec section 4.4, steps 2 and 3).  The spec text
of step 2 reads the next-to-expire query excluding nothing, but the
repository test file test_manager.py (test_refresh_remove_story_order and
test_refresh_change_story_order) requires tolerating a refresh delivered
before the underlying store write, which forces the changed post to be
excluded from the query and the story_now payload to be merged in as a
candidate; the model follows the tests.  Returns the story the pointer
must end up at, or none when the owner has no active story. -/
def derive_first_story (s : Store) (user_id post_id : String) (story_now : Option PostItem) :
    Option PostItem :=
  let next := PostDynamo.get_next_completed_post_to_expire s user_id (some post_id)
  match story_now, next with
  | none, nx => nx
  | some sn, none => some sn
  | some sn, some nx =>
    match sn.expiresAt, nx.expiresAt with
    | some ea, some eb => if strLt ea eb then some sn else some nx
    | _, _ => some nx

/-- Modelled from the spec: refresh_after_story_change for one
(follower, followed) pair (spec section 4.4).  At least one of story_prev
and story_now must be supplied; the owning user and changed post id are
read off the payload; the pointer is overwritten with the derived first
story (or deleted when there is none), and is already equal to it when
steps 3 and 4 leave it untouched, so the final pointer is the derived
first story in all cases. -/
def refresh_after_story_change (s : Store) (story_prev story_now : Option PostItem)
    (ptr : Option PostItem) : Option PostItem :=
  match story_now, story_prev with
  | none, none => ptr
  | none, some prev => derive_first_story s prev.postedByUserId prev.postId none
  | some now, _ => derive_first_story s now.postedByUserId now.postId (some now)

/-- A story change event against the store: a story is added or changed by
set_expires_at on a post, or removed by remove_expires_at. -/
inductive StoryOp where
  | setExp (pid : String) (ea : Ts)
  | remExp (pid : String)
  deriving DecidableEq, Repr

/-- The store mutation of an event: the corresponding dynamo.py call on
the current record. -/
def applyMut (s : Store) : StoryOp → Store
  | .setExp pid ea =>
    match s.get pid with
    | some it => (PostDynamo.set_expires_at s it ea).1
    | none => s
  | .remExp pid => (PostDynamo.remove_expires_at s pid).1

/-- The refresh call of an event, with the payloads its caller passes to
refresh_after_story_change: for a removal the current record as
story_prev, for a set the record with the new expiry as both halves
(story_prev when it was already a story, story_now always). -/
def applyRefresh (s : Store) (ptr : Option PostItem) : StoryOp → Option PostItem
  | .setExp pid ea =>
    match s.get pid with
    | some it =>
      let prev := if it.expiresAt.isSome then some it else none
      refresh_after_story_change s prev (some (PostDynamo.expiryUpd it ea it)) ptr
    | none => ptr
  | .remExp pid =>
    match s.get pid with
    | some it => refresh_after_story_change s (some it) none ptr
    | none => ptr

/-- One primitive step of an interleaving: either the store mutation of an
event or its refresh call. -/
inductive FfsStep where
  | mutate (op : StoryOp)
  | refresh (op : StoryOp)
  deriving DecidableEq, Repr

/-- Run one primitive step on the pair of store and pointer. -/
def runStep (st : Store × Option PostItem) : FfsStep → Store × Option PostItem
  | .mutate op => (applyMut st.1 op, st.2)
  | .refresh op => (st.1, applyRefresh st.1 st.2 op)

/-- Run an arbitrary interleaving of primitive steps. -/
def runSteps (st : Store × Option PostItem) (steps : List FfsStep) : Store × Option PostItem :=
  steps.foldl runStep st

/-- Run one event with its refresh adjacent to its mutation: refresh first
when the flag is true (delivery before the store write), else after. -/
def runEventPair (st : Store × Option PostItem) (ev : StoryOp × Bool) :
    Store × Option PostItem :=
  if ev.2 then runSteps st [.refresh ev.1, .mutate ev.1]
  else runSteps st [.mutate ev.1, .refresh ev.1]

/-- Run a sequence of events, each with its refresh adjacent to its
mutation in either order. -/
def runEventPairs (st : Store × Option PostItem) (evs : List (StoryOp × Bool)) :
    Store × Option PostItem :=
  evs.foldl runEventPair st

/-- A currently active story of the owner, as seen through the expiry
index: present in GSI-A1 under the owner partition with a
COMPLETED-qualified sort key (exactly the key condition of
get_next_completed_post_to_expire). -/
def isActiveStory (user_id : String) (it : PostItem) : Bool :=
  inGsi GSI_A1 it &&
    [(⟨"gsiA1PartitionKey", .eqS ("post/" ++ user_id)⟩ : KeyCond),
     ⟨"gsiA1SortKey", .beginsW (PostStatus.COMPLETED ++ "/")⟩].all (fun c => c.eval it)

/-- The current active stories of the owner. -/
def activeStories (s : Store) (user_id : String) : List PostItem :=
  s.values.filter (isActiveStory user_id)

/-- Pointer correctness for one pair: absent exactly when the owner has no
active story, else an active story minimal in the expiry index order. -/
def PtrOk (s : Store) (user_id : String) (ptr : Option PostItem) : Prop :=
  match ptr with
  | none => activeStories s user_id = []
  | some p => p ∈ activeStories s user_id ∧ ∀ q ∈ activeStories s user_id, skRel GSI_A1 p q

instance (s : Store) (user_id : String) (ptr : Option PostItem) :
    Decidable (PtrOk s user_id ptr) :=
  match ptr with
  | none => inferInstanceAs (Decidable (activeStories s user_id = []))
  | some p =>
    inferInstanceAs (Decidable (p ∈ activeStories s user_id ∧
      ∀ q ∈ activeStories s user_id, skRel GSI_A1 p q))

/-- The A1 sort key of a record is absent or is the status-qualified
expiry of the record (so present only with expiresAt present). -/
def A1Ok (it : PostItem) : Prop :=
  it.gsiA1SortKey = none ∨
    it.gsiA1SortKey = it.expiresAt.map (fun ea => it.postStatus ++ "/" ++ ea)

instance (it : PostItem) : Decidable (A1Ok it) := by
  unfold A1Ok
  infer_instance

/-- Item well-formedness for the story engine: the lifecycle status is one
of the enum values and the A1 sort key respects the record. -/
def WfItem (it : PostItem) : Prop :=
  it.postStatus ∈ PostStatus.all ∧ A1Ok it

instance (it : PostItem) : Decidable (WfItem it) := by
  unfold WfItem
  infer_instance

/-- Store well-formedness for the story engine. -/
def WfStore (s : Store) : Prop := Store.Wf s ∧ ∀ it ∈ s.values, WfItem it

instance (s : Store) : Decidable (WfStore s) := by
  unfold WfStore
  infer_instance

/-- Validity of one event against the current store: the target record
exists under a non-empty id, is owned by the followed user, and (for a set,
which makes it an active story) is COMPLETED. -/
def eventOkB (user_id : String) (s : Store) : StoryOp → Bool
  | .setExp pid _ =>
    (!(pid == "")) &&
      (s.get pid).elim false
        (fun it => it.postedByUserId == user_id && it.postStatus == PostStatus.COMPLETED)
  | .remExp pid =>
    (!(pid == "")) && (s.get pid).elim false (fun it => it.postedByUserId == user_id)

/-- Validity of one event as a proposition. -/
def EventOk (user_id : String) (s : Store) (op : StoryOp) : Prop :=
  eventOkB user_id s op = true

instance (user_id : String) (s : Store) (op : StoryOp) : Decidable (EventOk user_id s op) := by
  unfold EventOk
  infer_instance

/-- Validity of a sequence of events, each against the store it is applied
to. -/
def eventsOkB (user_id : String) : Store → List (StoryOp × Bool) → Bool
  | _, [] => true
  | s, ev :: rest => eventOkB user_id s ev.1 && eventsOkB user_id (applyMut s ev.1) rest

/-- Validity of a sequence of events as a proposition. -/
def EventsOk (user_id : String) (s : Store) (evs : List (StoryOp × Bool)) : Prop :=
  eventsOkB user_id s evs = true

instance (user_id : String) (s : Store) (evs : List (StoryOp × Bool)) :
    Decidable (EventsOk user_id s evs) := by
  unfold EventsOk
  infer_instance

end FfsManager

/-- Run a built transaction item (or surface the build error) against the
store: the validation errors of the builders happen before any store call,
so the store is returned unchanged alongside them. -/
def runTransact (s : Store) (t : Except Err TransactItem) : Store × Option Err :=
  match t with
  | .ok item => transactWriteItems s [item]
  | .error e => (s, some e)

/-- Result of a decrement wrapper call: the store afterwards, the record
returned (absent in fail-soft degraded success), whether a warning was
logged, and the surfaced error when failing hard. -/
structure DecResult where
  store : Store
  result : Option PostItem
  warned : Bool
  err : Option Err
  deriving Repr

namespace PostDynamo

/-- Modelled from the spec: the decrement wrappers with the caller-chosen
fail mode (decrement_flag_count and friends are exercised by the test
files but their bodies are not under src; spec sections 4.1 and 7).  The
conditional decrement is submitted; on a failed condition the fail-hard
mode surfaces the error and the fail-soft mode logs a warning and returns
absent; the store is unchanged either way. -/
def runDecrement (s : Store) (t : TransactItem) (fail_soft : Bool) : DecResult :=
  match transactWriteItems s [t] with
  | (s2, none) =>
    { store := s2
      result :=
        match t with
        | .update k _ _ => s2.get k
        | .put k _ => s2.get k
      warned := false
      err := none }
  | (s2, some e) =>
    if fail_soft then { store := s2, result := none, warned := true, err := none }
    else { store := s2, result := none, warned := false, err := some e }

/-- Modelled from the spec: decrement_flag_count with fail mode. -/
def decrement_flag_count (s : Store) (post_id : String) (fail_soft : Bool) : DecResult :=
  runDecrement s (transact_decrement_flag_count post_id) fail_soft

/-- Modelled from the spec: decrement_comment_count with fail mode. -/
def decrement_comment_count (s : Store) (post_id : String) (fail_soft : Bool) : DecResult :=
  runDecrement s (transact_decrement_comment_count post_id) fail_soft

/-- Modelled from the spec: decrement_like_count with fail mode; an
unrecognized like status surfaces PostException and touches nothing. -/
def decrement_like_count (s : Store) (post_id like_status : String) (fail_soft : Bool) :
    DecResult :=
  match transact_decrement_like_count post_id like_status with
  | .ok t => runDecrement s t fail_soft
  | .error e => { store := s, result := none, warned := false, err := some e }

end PostDynamo

/-- One decrement call of any counter kind, with its fail mode. -/
inductive DecCall where
  | flag (pid : String) (soft : Bool)
  | like (pid like_status : String) (soft : Bool)
  | comment (pid : String) (soft : Bool)
  deriving DecidableEq, Repr

/-- The store after one decrement call. -/
def applyDecCall (s : Store) : DecCall → Store
  | .flag pid soft => (PostDynamo.decrement_flag_count s pid soft).store
  | .like pid ls soft => (PostDynamo.decrement_like_count s pid ls soft).store
  | .comment pid soft => (PostDynamo.decrement_comment_count s pid soft).store

/-- The store after a sequence of decrement calls. -/
def applyDecCalls (s : Store) (cs : List DecCall) : Store := cs.foldl applyDecCall s

/-- All decrementable counters of a record are non-negative (absent counts
as zero). -/
def CountersNonneg (it : PostItem) : Prop :=
  0 ≤ it.flagCount.getD 0 ∧ 0 ≤ it.onymousLikeCount.getD 0 ∧
    0 ≤ it.anonymousLikeCount.getD 0 ∧ 0 ≤ it.commentCount.getD 0

instance (it : PostItem) : Decidable (CountersNonneg it) := by
  unfold CountersNonneg
  infer_instance

/-- All counters of all records of the store are non-negative. -/
def StoreCountersNonneg (s : Store) : Prop := ∀ it ∈ s.values, CountersNonneg it

instance (s : Store) : Decidable (StoreCountersNonneg s) := by
  unfold StoreCountersNonneg
  infer_instance

/-- A record with every attribute blank, used as the fallback of sample
builders. -/
def blankPost : PostItem :=
  { schemaVersion := 0, partitionKey := "", sortKey := "", postId := "", postedAt := ""
    postedByUserId := "", postType := "", postStatus := ""
    expiresAt := none, albumId := none, text := none, textTags := none
    commentsDisabled := none, likesDisabled := none, sharingDisabled := none
    verificationHidden := none, checksum := none, originalPostId := none
    flagCount := none, onymousLikeCount := none, anonymousLikeCount := none
    commentCount := none, viewedByCount := none, hasNewCommentActivity := none
    gsiA1PartitionKey := none, gsiA1SortKey := none
    gsiA2PartitionKey := "", gsiA2SortKey := "", gsiA3PartitionKey := "", gsiA3SortKey := ""
    gsiK1PartitionKey := none, gsiK1SortKey := none, gsiK2PartitionKey := none
    gsiK2SortKey := none, gsiK3PartitionKey := none, gsiK3SortKey := none }

/-- A sample pending record as transact_add_pending_post inserts it. -/
def samplePending (pid uid : String) (ea : Option Ts) (aid : Option String) : PostItem :=
  match PostDynamo.transact_add_pending_post uid pid "ptype" ⟨"2020-01-01", "10:00:00+00:00"⟩
      ea aid (some "lore ipsum") none none none none none with
  | .put _ item => item
  | .update _ _ _ => blankPost

/-- A sample completed story record, as the creation and completion flow
leaves it. -/
def sampleStory (pid uid : String) (ea : Ts) : PostItem :=
  { blankPost with
    schemaVersion := 3
    partitionKey := "post/" ++ pid
    sortKey := "-"
    postId := pid
    postedAt := "2020-01-01T10:00:00+00:00"
    postedByUserId := uid
    postType := "ptype"
    postStatus := PostStatus.COMPLETED
    text := some "lore ipsum"
    expiresAt := some ea.iso
    gsiA1PartitionKey := some ("post/" ++ uid)
    gsiA1SortKey := some (PostStatus.COMPLETED ++ "/" ++ ea.iso)
    gsiA2PartitionKey := "post/" ++ uid
    gsiA2SortKey := PostStatus.COMPLETED ++ "/2020-01-01T10:00:00+00:00"
    gsiA3PartitionKey := "post/" ++ uid
    gsiA3SortKey := PostStatus.COMPLETED ++ "/ptype/2020-01-01T10:00:00+00:00"
    gsiK1PartitionKey := some ("post/" ++ ea.date)
    gsiK1SortKey := some ea.time }

/-- Reading back the key just written returns the new record. -/
theorem store_get_put_self (s : Store) (k : String) (v : PostItem) :
    (s.put k v).get k = some v := by
  unfold Store.put Store.get
  simp [List.lookup]

/-- Reading another key is unaffected by a write. -/
theorem store_get_put_ne (s : Store) (k k' : String) (v : PostItem) (h : k' ≠ k) :
    (s.put k v).get k' = s.get k' := by
  unfold Store.put Store.get
  have hne : (k' == k) = false := by simpa using h
  simp only [List.lookup, hne]
  induction s with
  | nil => simp [List.filter]
  | cons p t ih =>
    by_cases hk : p.1 == k
    · have hpk : p.1 = k := by simpa using hk
      have : (k' == p.1) = false := by simp [hpk, h]
      simp [List.filter_cons, hk, List.lookup, this, ih]
    · simp only [List.filter_cons, hk, cond_false]
      cases p with
      | mk a b =>
        by_cases hka : k' == a
        · simp [List.lookup, hka]
        · simp only [List.lookup, hka, cond_false, Bool.false_eq_true, ih]

/-- A successful point read comes from a binding of the list. -/
theorem store_get_mem (s : Store) (k : String) (v : PostItem) (h : s.get k = some v) :
    (k, v) ∈ s := by
  unfold Store.get at h
  induction s with
  | nil => simp [List.lookup] at h
  | cons p t ih =>
    cases p with
    | mk a b =>
      by_cases hka : k == a
      · have : k = a := by simpa using hka
        subst this
        simp [List.lookup] at h
        subst h
        exact List.mem_cons_self _ _
      · simp only [List.lookup, hka, cond_false] at h
        exact List.mem_cons_of_mem _ (ih h)

/-- The records after a write: the new one in front of the survivors. -/
theorem store_values_put (s : Store) (k : String) (v : PostItem) :
    Store.values (s.put k v) = v :: Store.values (List.filter (fun p => !(p.1 == k)) s) := rfl

/-- In a well-formed store, dropping the bindings of one key is dropping
the records with that post id. -/
theorem values_filter_key (s : Store) (k : String) (hwf : Store.Wf s) :
    Store.values (List.filter (fun p => !(p.1 == k)) s) =
      (Store.values s).filter (fun it => !(it.postId == k)) := by
  induction s with
  | nil => rfl
  | cons p t ih =>
    have hwf' : Store.Wf t := fun q hq => hwf q (List.mem_cons_of_mem _ hq)
    cases p with
    | mk a b =>
      have hid : b.postId = a := hwf (a, b) (List.mem_cons_self _ _)
      have ht := ih hwf'
      unfold Store.values at ht ⊢
      by_cases hk : a = k
      · subst hk
        simp [List.filter_cons, hid, ht]
      · have h1 : (a == k) = false := by simpa using hk
        have h2 : (b.postId == k) = false := by rw [hid]; exact h1
        simp [List.filter_cons, h1, h2, ht]

/-- A write keyed by the post id of the record keeps the store
well-formed. -/
theorem wf_put (s : Store) (k : String) (v : PostItem) (hwf : Store.Wf s) (hv : v.postId = k) :
    Store.Wf (s.put k v) := by
  intro p hp
  unfold Store.put at hp
  rcases List.mem_cons.mp hp with rfl | hmem
  · exact hv
  · exact hwf p (List.mem_of_mem_filter hmem)

/-- The sort key order is reflexive. -/
theorem skRel_refl (g : Gsi) (a : PostItem) : skRel g a a := by
  unfold skRel AttrV.leB
  rcases (skOf g a).getD (.s "") with v | v <;> simp

/-- An empty head of the sorted query means the unsorted list was
empty. -/
theorem insertionSort_head_none {g : Gsi} {l : List PostItem}
    (h : (List.insertionSort (skRel g) l).head? = none) : l = [] := by
  have hperm := List.perm_insertionSort (skRel g) l
  rw [List.head?_eq_none_iff] at h
  rw [h] at hperm
  exact hperm.nil_eq.symm

/-- The head of the sorted list is a member of the unsorted list and a
lower bound of it. -/
theorem insertionSort_head_min {g : Gsi} {l : List PostItem} {q : PostItem}
    (h : (List.insertionSort (skRel g) l).head? = some q) :
    q ∈ l ∧ ∀ x ∈ l, skRel g q x := by
  have hperm := List.perm_insertionSort (skRel g) l
  have hsorted := List.sorted_insertionSort (skRel g) l
  obtain ⟨t, ht⟩ : ∃ t, List.insertionSort (skRel g) l = q :: t := by
    cases hs : List.insertionSort (skRel g) l with
    | nil => rw [hs] at h; simp at h
    | cons a u =>
      rw [hs] at h
      simp only [List.head?_cons, Option.some.injEq] at h
      exact ⟨u, by rw [h]⟩
  constructor
  · exact hperm.mem_iff.mp (by rw [ht]; exact List.mem_cons_self _ _)
  · intro x hx
    have hx' : x ∈ q :: t := by rw [← ht]; exact hperm.mem_iff.mpr hx
    rcases List.mem_cons.mp hx' with rfl | hxt
    · exact skRel_refl g x
    · rw [ht] at hsorted
      exact List.rel_of_sorted_cons hsorted x hxt

/-- Membership in a query result: in the table, in the index, satisfying
the key condition and the filter. -/
theorem mem_query {s : Store} {g : Gsi} {conds : List KeyCond} {filt : PostItem → Bool}
    {it : PostItem} :
    it ∈ s.query g conds filt ↔
      it ∈ s.values ∧ (inGsi g it && conds.all (fun c => c.eval it)) = true ∧ filt it = true := by
  unfold Store.query
  rw [(List.perm_insertionSort _ _).mem_iff]
  simp only [List.mem_filter, List.all_eq_true, Bool.and_eq_true]
  tauto

/-- Query results are sorted ascending by sort key. -/
theorem query_sorted (s : Store) (g : Gsi) (conds : List KeyCond) (filt : PostItem → Bool) :
    List.Sorted (skRel g) (s.query g conds filt) :=
  List.sorted_insertionSort _ _

/-- Attribute lookup of the A1 partition key. -/
theorem attr_gsiA1Pk (it : PostItem) :
    it.attr "gsiA1PartitionKey" = it.gsiA1PartitionKey.map AttrV.s := rfl

/-- Attribute lookup of the A1 sort key. -/
theorem attr_gsiA1Sk (it : PostItem) :
    it.attr "gsiA1SortKey" = it.gsiA1SortKey.map AttrV.s := rfl

/-- Attribute lookup of the K1 partition key. -/
theorem attr_gsiK1Pk (it : PostItem) :
    it.attr "gsiK1PartitionKey" = it.gsiK1PartitionKey.map AttrV.s := rfl

/-- Attribute lookup of the K1 sort key. -/
theorem attr_gsiK1Sk (it : PostItem) :
    it.attr "gsiK1SortKey" = it.gsiK1SortKey.map AttrV.s := rfl

/-- Attribute lookup of the K2 partition key. -/
theorem attr_gsiK2Pk (it : PostItem) :
    it.attr "gsiK2PartitionKey" = it.gsiK2PartitionKey.map AttrV.s := rfl

/-- Attribute lookup of the K2 sort key. -/
theorem attr_gsiK2Sk (it : PostItem) :
    it.attr "gsiK2SortKey" = it.gsiK2SortKey.map AttrV.s := rfl

/-- Attribute lookup of the K3 partition key. -/
theorem attr_gsiK3Pk (it : PostItem) :
    it.attr "gsiK3PartitionKey" = it.gsiK3PartitionKey.map AttrV.s := rfl

/-- Attribute lookup of the K3 sort key. -/
theorem attr_gsiK3Sk (it : PostItem) :
    it.attr "gsiK3SortKey" = it.gsiK3SortKey.map AttrV.n := rfl

/-- Membership of the sparse K1 index is presence of its two keys. -/
theorem inGsi_K1 (it : PostItem) :
    inGsi GSI_K1 it = (it.gsiK1PartitionKey.isSome && it.gsiK1SortKey.isSome) := by
  unfold inGsi GSI_K1
  rw [attr_gsiK1Pk, attr_gsiK1Sk]
  rcases it.gsiK1PartitionKey with _ | a <;> rcases it.gsiK1SortKey with _ | b <;> rfl

/-- Membership of the sparse A1 index is presence of its two keys. -/
theorem inGsi_A1 (it : PostItem) :
    inGsi GSI_A1 it = (it.gsiA1PartitionKey.isSome && it.gsiA1SortKey.isSome) := by
  unfold inGsi GSI_A1
  rw [attr_gsiA1Pk, attr_gsiA1Sk]
  rcases it.gsiA1PartitionKey with _ | a <;> rcases it.gsiA1SortKey with _ | b <;> rfl

/-- Membership of the sparse K2 index is presence of its two keys. -/
theorem inGsi_K2 (it : PostItem) :
    inGsi GSI_K2 it = (it.gsiK2PartitionKey.isSome && it.gsiK2SortKey.isSome) := by
  unfold inGsi GSI_K2
  rw [attr_gsiK2Pk, attr_gsiK2Sk]
  rcases it.gsiK2PartitionKey with _ | a <;> rcases it.gsiK2SortKey with _ | b <;> rfl

/-- Lexicographic comparison of character lists with a common front: the
front cancels, strict version. -/
theorem listChar_append_lt_iff (p a b : List Char) : p ++ a < p ++ b ↔ a < b := by
  induction p with
  | nil => simp
  | cons c p ih =>
    simp only [List.cons_append]
    have hcons : (c :: (p ++ a) < c :: (p ++ b)) ↔ (p ++ a) < (p ++ b) := List.Lex.cons_iff
    rw [hcons, ih]

/-- Lexicographic comparison of character lists with a common front: the
front cancels, non-strict version. -/
theorem listChar_append_le_iff (p a b : List Char) : p ++ a ≤ p ++ b ↔ a ≤ b := by
  rw [← @not_lt (List Char) _ (p ++ b) (p ++ a), ← @not_lt (List Char) _ b a,
    listChar_append_lt_iff]

/-- The status-qualified sort keys of one status compare exactly as the
expiry parts. -/
theorem strLe_qualified_iff (st ea eb : String) :
    strLe (st ++ "/" ++ ea) (st ++ "/" ++ eb) ↔ strLe ea eb := by
  unfold strLe
  rw [String.data_append, String.data_append]
  exact listChar_append_le_iff _ _ _

/-- The status-qualified sort keys of one status compare strictly exactly
as the expiry parts. -/
theorem strLt_qualified_iff (st ea eb : String) :
    strLt (st ++ "/" ++ ea) (st ++ "/" ++ eb) ↔ strLt ea eb := by
  unfold strLt
  rw [String.data_append, String.data_append]
  exact listChar_append_lt_iff _ _ _

/-- Only the COMPLETED status makes a status-qualified sort key begin with
the COMPLETED marker. -/
theorem status_of_beginsW (st ea : String) (hst : st ∈ PostStatus.all)
    (h : ("COMPLETED/").data <+: (st ++ "/" ++ ea).data) : st = "COMPLETED" := by
  simp only [PostStatus.all, PostStatus.PENDING, PostStatus.PROCESSING, PostStatus.COMPLETED,
    PostStatus.ARCHIVED, PostStatus.DELETING, PostStatus.ERROR, List.mem_cons,
    List.mem_singleton, List.not_mem_nil, or_false] at hst
  rcases hst with rfl | rfl | rfl | rfl | rfl | rfl
  · exfalso
    rw [String.data_append, show (("PENDING" ++ "/" : String)).data = 'P' :: "ENDING/".data
      from by decide, show ("COMPLETED/").data = 'C' :: "OMPLETED/".data from by decide,
      List.cons_append] at h
    exact absurd (List.cons_prefix_cons.mp h).1 (by decide)
  · exfalso
    rw [String.data_append, show (("PROCESSING" ++ "/" : String)).data = 'P' :: "ROCESSING/".data
      from by decide, show ("COMPLETED/").data = 'C' :: "OMPLETED/".data from by decide,
      List.cons_append] at h
    exact absurd (List.cons_prefix_cons.mp h).1 (by decide)
  · rfl
  · exfalso
    rw [String.data_append, show (("ARCHIVED" ++ "/" : String)).data = 'A' :: "RCHIVED/".data
      from by decide, show ("COMPLETED/").data = 'C' :: "OMPLETED/".data from by decide,
      List.cons_append] at h
    exact absurd (List.cons_prefix_cons.mp h).1 (by decide)
  · exfalso
    rw [String.data_append, show (("DELETING" ++ "/" : String)).data = 'D' :: "ELETING/".data
      from by decide, show ("COMPLETED/").data = 'C' :: "OMPLETED/".data from by decide,
      List.cons_append] at h
    exact absurd (List.cons_prefix_cons.mp h).1 (by decide)
  · exfalso
    rw [String.data_append, show (("ERROR" ++ "/" : String)).data = 'E' :: "RROR/".data
      from by decide, show ("COMPLETED/").data = 'C' :: "OMPLETED/".data from by decide,
      List.cons_append] at h
    exact absurd (List.cons_prefix_cons.mp h).1 (by decide)

/-- C2: transact_set_post_status raises the input validation error, before
any store operation and leaving the store unchanged, exactly when the
presence of the supplied album rank does not match having an album and
completing; in particular completing an album post without a rank and
supplying a rank outside that case are rejected. -/
theorem post_status_rank_validation (post_item : PostItem) (status : String)
    (opi : Option String) (ar : Option Rat) (s : Store) :
    (ar.isSome ≠ (optTruthy post_item.albumId && (status == PostStatus.COMPLETED)) ↔
      PostDynamo.transact_set_post_status post_item status opi ar =
        .error (.assertionError
          "album_rank must be specified only when completing a post in an album")) ∧
    ∀ e, PostDynamo.transact_set_post_status post_item status opi ar = .error e →
      runTransact s (PostDynamo.transact_set_post_status post_item status opi ar) =
        (s, some e) := by
  unfold PostDynamo.transact_set_post_status
  by_cases h : ar.isSome = (optTruthy post_item.albumId && (status == PostStatus.COMPLETED))
  · have hb : (ar.isSome != (optTruthy post_item.albumId && (status == PostStatus.COMPLETED)))
        = false := by
      simp [bne, h]
    refine ⟨⟨fun hne => absurd h hne, fun he => ?_⟩, fun e he => ?_⟩
    · simp only [hb, Bool.false_eq_true, if_false] at he
      cases he
    · simp only [hb, Bool.false_eq_true, if_false] at he
      cases he
  · have hb : (ar.isSome != (optTruthy post_item.albumId && (status == PostStatus.COMPLETED)))
        = true := bne_iff_ne.mpr h
    refine ⟨⟨fun _ => ?_, fun _ => h⟩, fun e he => ?_⟩
    · simp only [hb, if_true]
    · simp only [hb, if_true] at he ⊢
      cases he
      rfl

/-- C2 witness: completing a post that is in an album without a rank is
rejected with the validation error and the store is untouched. -/
theorem post_status_rank_validation_witness :
    PostDynamo.transact_set_post_status (samplePending "p1" "u1" none (some "aid"))
        PostStatus.COMPLETED none none =
      .error (.assertionError
        "album_rank must be specified only when completing a post in an album") ∧
    runTransact [("p1", samplePending "p1" "u1" none (some "aid"))]
        (PostDynamo.transact_set_post_status (samplePending "p1" "u1" none (some "aid"))
          PostStatus.COMPLETED none none) =
      ([("p1", samplePending "p1" "u1" none (some "aid"))],
        some (.assertionError
          "album_rank must be specified only when completing a post in an album")) := by
  have h := post_status_rank_validation (samplePending "p1" "u1" none (some "aid"))
    PostStatus.COMPLETED none none [("p1", samplePending "p1" "u1" none (some "aid"))]
  exact ⟨h.1.mp (by decide), h.2 _ (h.1.mp (by decide))⟩

/-- C9: the album membership query rejects combining the completed filter
with the rank cursor, for every store and before consulting it, while each
restriction alone is accepted. -/
theorem album_query_restriction_exclusive (s : Store) (album_id : String)
    (completed : Option Bool) (after_rank : Option Rat) :
    (completed.isSome = true → after_rank.isSome = true →
      PostDynamo.generate_post_ids_in_album s album_id completed after_rank =
        .error (.assertionError "Cant specify both completed and after_rank kwargs")) ∧
    (∃ l, PostDynamo.generate_post_ids_in_album s album_id completed none = .ok l) ∧
    (∃ l, PostDynamo.generate_post_ids_in_album s album_id none after_rank = .ok l) := by
  unfold PostDynamo.generate_post_ids_in_album
  refine ⟨fun h1 h2 => ?_, ?_, ?_⟩
  · have hb : (completed.isSome && after_rank.isSome) = true := by simp [h1, h2]
    simp [hb]
  · simp
  · simp

/-- C9 witness: at a concrete store, filter plus cursor errors and each
alone succeeds. -/
theorem album_query_restriction_exclusive_witness :
    PostDynamo.generate_post_ids_in_album [] "aid" (some true) (some 0) =
      .error (.assertionError "Cant specify both completed and after_rank kwargs") ∧
    (∃ l, PostDynamo.generate_post_ids_in_album [] "aid" (some true) none = .ok l) ∧
    (∃ l, PostDynamo.generate_post_ids_in_album [] "aid" none (some 0) = .ok l) :=
  ⟨(album_query_restriction_exclusive [] "aid" (some true) (some 0)).1 (by decide) (by decide),
   (album_query_restriction_exclusive [] "aid" (some true) (some 0)).2.1,
   (album_query_restriction_exclusive [] "aid" (some true) (some 0)).2.2⟩

/-- C7: when the canonical record is absent, the viewed-by increment fails
with PostDoesNotExist and the transact counter increments fail their
existence condition; the store is unchanged in every case. -/
theorem increment_absent_record_not_found (s : Store) (post_id : String)
    (h : s.get post_id = none) :
    PostDynamo.increment_viewed_by_count s post_id = (s, .error (.postDoesNotExist post_id)) ∧
    runTransact s (.ok (PostDynamo.transact_increment_flag_count post_id)) =
      (s, some .transactionCanceled) ∧
    runTransact s (.ok (PostDynamo.transact_increment_comment_count post_id)) =
      (s, some .transactionCanceled) ∧
    ∀ like_status t, PostDynamo.transact_increment_like_count post_id like_status = .ok t →
      runTransact s (.ok t) = (s, some .transactionCanceled) := by
  refine ⟨?_, ?_, ?_, ?_⟩
  · unfold PostDynamo.increment_viewed_by_count clientUpdateItem
    rw [h]
  · simp [runTransact, transactWriteItems, transactWriteItems.go, runTransactItem,
      PostDynamo.transact_increment_flag_count, h]
  · simp [runTransact, transactWriteItems, transactWriteItems.go, runTransactItem,
      PostDynamo.transact_increment_comment_count, h]
  · intro like_status t ht
    unfold PostDynamo.transact_increment_like_count at ht
    split at ht
    · cases ht
      simp [runTransact, transactWriteItems, transactWriteItems.go, runTransactItem, h]
    · split at ht
      · cases ht
        simp [runTransact, transactWriteItems, transactWriteItems.go, runTransactItem, h]
      · cases ht

/-- C7 witness: on the empty store, incrementing the view count of a
missing post surfaces PostDoesNotExist and an increment transaction is
canceled, both leaving the store empty. -/
theorem increment_absent_record_not_found_witness :
    PostDynamo.increment_viewed_by_count [] "nope" =
      ([], .error (.postDoesNotExist "nope")) ∧
    runTransact [] (.ok (PostDynamo.transact_increment_flag_count "nope")) =
      ([], some .transactionCanceled) := by
  have h := increment_absent_record_not_found [] "nope" rfl
  exact ⟨h.1, h.2.1⟩

/-- C8: the multi-field edit errors before any store access when no
editable field is supplied; the empty string for text removes text and
textTags together; textTags supplied without text leaves the stored tags
unchanged. -/
theorem post_edit_fields (s : Store) (post_id : String) :
    (∀ tt, PostDynamo.set s post_id none tt none none none none =
      (s, .error (.assertionError "Action-less post edit requested"))) ∧
    (∀ it tt cd ld sd vh, s.get post_id = some it →
      ∃ it2, PostDynamo.set s post_id (some "") tt cd ld sd vh =
          (s.put post_id it2, .ok it2) ∧
        it2.text = none ∧ it2.textTags = none) ∧
    (∀ it tt cd ld sd vh, s.get post_id = some it →
      (cd.isSome || ld.isSome || sd.isSome || vh.isSome) = true →
      ∃ it2, PostDynamo.set s post_id none tt cd ld sd vh =
          (s.put post_id it2, .ok it2) ∧
        it2.textTags = it.textTags ∧ it2.text = it.text) := by
  refine ⟨?_, ?_, ?_⟩
  · intro tt
    simp [PostDynamo.set]
  · intro it tt cd ld sd vh hget
    refine ⟨PostDynamo.postEditUpd (some "") tt cd ld sd vh it, ?_, ?_, ?_⟩
    · simp [PostDynamo.set, clientUpdateItem, hget]
    · rcases cd with _ | b1 <;> rcases ld with _ | b2 <;> rcases sd with _ | b3 <;>
        rcases vh with _ | b4 <;> simp [PostDynamo.postEditUpd]
    · rcases cd with _ | b1 <;> rcases ld with _ | b2 <;> rcases sd with _ | b3 <;>
        rcases vh with _ | b4 <;> simp [PostDynamo.postEditUpd]
  · intro it tt cd ld sd vh hget hone
    have hassert : (Option.isNone (none : Option String) && cd.isNone && ld.isNone &&
        sd.isNone && vh.isNone) = false := by
      rcases cd with _ | b1 <;> rcases ld with _ | b2 <;> rcases sd with _ | b3 <;>
        rcases vh with _ | b4 <;> simp_all
    refine ⟨PostDynamo.postEditUpd none tt cd ld sd vh it, ?_, ?_, ?_⟩
    · simp only [PostDynamo.set, hassert, Bool.false_eq_true, if_false]
      simp [clientUpdateItem, hget]
    · rcases cd with _ | b1 <;> rcases ld with _ | b2 <;> rcases sd with _ | b3 <;>
        rcases vh with _ | b4 <;> simp [PostDynamo.postEditUpd]
    · rcases cd with _ | b1 <;> rcases ld with _ | b2 <;> rcases sd with _ | b3 <;>
        rcases vh with _ | b4 <;> simp [PostDynamo.postEditUpd]

/-- C8 witness: on a concrete store, an edit with no editable field
errors, an empty text removes text and tags, and an edit of one flag with
tags supplied leaves the stored tags in place. -/
theorem post_edit_fields_witness :
    (PostDynamo.set [("p1", samplePending "p1" "u1" none none)] "p1" none
        (some [⟨"t", "u2"⟩]) none none none none =
      ([("p1", samplePending "p1" "u1" none none)],
        .error (.assertionError "Action-less post edit requested"))) ∧
    (∃ it2, PostDynamo.set [("p1", samplePending "p1" "u1" none none)] "p1" (some "")
        none none none none none =
        (Store.put [("p1", samplePending "p1" "u1" none none)] "p1" it2, .ok it2) ∧
      it2.text = none ∧ it2.textTags = none) ∧
    (∃ it2, PostDynamo.set [("p1", samplePending "p1" "u1" none none)] "p1" none
        (some [⟨"t", "u2"⟩]) (some true) none none none =
        (Store.put [("p1", samplePending "p1" "u1" none none)] "p1" it2, .ok it2) ∧
      it2.textTags = (samplePending "p1" "u1" none none).textTags ∧
      it2.text = (samplePending "p1" "u1" none none).text) := by
  have h := post_edit_fields [("p1", samplePending "p1" "u1" none none)] "p1"
  exact ⟨h.1 (some [⟨"t", "u2"⟩]),
    h.2.1 (samplePending "p1" "u1" none none) none none none none none (by decide),
    h.2.2 (samplePending "p1" "u1" none none) (some [⟨"t", "u2"⟩]) (some true) none none none
      (by decide) (by decide)⟩

/-- C10: a successful transact_set_post_status is the conditional update
of the listed attributes only: postStatus and the A2 and A3 sort keys
always, originalPostId only when supplied, the album rank sort key only
when the record has an album, the A1 sort key only when it has an expiry;
every other attribute of the canonical record is left unchanged. -/
theorem status_set_frame (post_item : PostItem) (status : String) (opi : Option String)
    (ar : Option Rat) (t : TransactItem)
    (h : PostDynamo.transact_set_post_status post_item status opi ar = .ok t) :
    t = .update post_item.postId (fun _ => true)
      (PostDynamo.statusSetUpd post_item status opi (ar.getD (-1))) ∧
    ∀ it r, r = PostDynamo.statusSetUpd post_item status opi (ar.getD (-1)) it →
      r.postStatus = status ∧
      r.gsiA2SortKey = status ++ "/" ++ post_item.postedAt ∧
      r.gsiA3SortKey = status ++ "/" ++ post_item.postType ++ "/" ++ post_item.postedAt ∧
      r.schemaVersion = it.schemaVersion ∧
      r.partitionKey = it.partitionKey ∧
      r.sortKey = it.sortKey ∧
      r.postId = it.postId ∧
      r.postedAt = it.postedAt ∧
      r.postedByUserId = it.postedByUserId ∧
      r.postType = it.postType ∧
      r.expiresAt = it.expiresAt ∧
      r.albumId = it.albumId ∧
      r.text = it.text ∧
      r.textTags = it.textTags ∧
      r.commentsDisabled = it.commentsDisabled ∧
      r.likesDisabled = it.likesDisabled ∧
      r.sharingDisabled = it.sharingDisabled ∧
      r.verificationHidden = it.verificationHidden ∧
      r.checksum = it.checksum ∧
      r.flagCount = it.flagCount ∧
      r.onymousLikeCount = it.onymousLikeCount ∧
      r.anonymousLikeCount = it.anonymousLikeCount ∧
      r.commentCount = it.commentCount ∧
      r.viewedByCount = it.viewedByCount ∧
      r.hasNewCommentActivity = it.hasNewCommentActivity ∧
      r.gsiA1PartitionKey = it.gsiA1PartitionKey ∧
      r.gsiA2PartitionKey = it.gsiA2PartitionKey ∧
      r.gsiA3PartitionKey = it.gsiA3PartitionKey ∧
      r.gsiK1PartitionKey = it.gsiK1PartitionKey ∧
      r.gsiK1SortKey = it.gsiK1SortKey ∧
      r.gsiK2PartitionKey = it.gsiK2PartitionKey ∧
      r.gsiK2SortKey = it.gsiK2SortKey ∧
      r.gsiK3PartitionKey = it.gsiK3PartitionKey ∧
      (optTruthy opi = false → r.originalPostId = it.originalPostId) ∧
      (optTruthy post_item.albumId = false → r.gsiK3SortKey = it.gsiK3SortKey) ∧
      (post_item.expiresAt = none → r.gsiA1SortKey = it.gsiA1SortKey) := by
  constructor
  · unfold PostDynamo.transact_set_post_status at h
    by_cases hb : (ar.isSome !=
        (optTruthy post_item.albumId && (status == PostStatus.COMPLETED))) = true
    · rw [if_pos hb] at h
      cases h
    · rw [if_neg hb] at h
      cases h
      rfl
  · intro it r hr
    subst hr
    by_cases h1 : optTruthy opi = true <;>
      by_cases h2 : optTruthy post_item.albumId = true <;>
      rcases hea : post_item.expiresAt with _ | ea <;>
      simp [PostDynamo.statusSetUpd, h1, h2, hea, Bool.not_eq_true] at h1 h2 ⊢

/-- C10 witness: the frame at a concrete record and status change. -/
theorem status_set_frame_witness :
    ∃ t, PostDynamo.transact_set_post_status (samplePending "p1" "u1" none none)
        PostStatus.ARCHIVED none none = .ok t ∧
      t = .update "p1" (fun _ => true)
        (PostDynamo.statusSetUpd (samplePending "p1" "u1" none none) PostStatus.ARCHIVED
          none (-1)) ∧
      (PostDynamo.statusSetUpd (samplePending "p1" "u1" none none) PostStatus.ARCHIVED none (-1)
          (samplePending "p1" "u1" none none)).text =
        (samplePending "p1" "u1" none none).text := by
  have hok : PostDynamo.transact_set_post_status (samplePending "p1" "u1" none none)
      PostStatus.ARCHIVED none none =
      .ok (.update (samplePending "p1" "u1" none none).postId (fun _ => true)
        (PostDynamo.statusSetUpd (samplePending "p1" "u1" none none) PostStatus.ARCHIVED none
          ((none : Option Rat).getD (-1)))) := by
    unfold PostDynamo.transact_set_post_status
    rw [if_neg (by decide)]
  have h := status_set_frame (samplePending "p1" "u1" none none) PostStatus.ARCHIVED none none
    _ hok
  refine ⟨_, hok, ?_, ?_⟩
  · rw [h.1]
    rfl
  · exact ((h.2 (samplePending "p1" "u1" none none) _ rfl).2.2.2.2.2.2.2.2.2.2.2.2).1

/-- A record of a filtered store is a record of the store. -/
theorem values_filter_subset (s : Store) (p : String × PostItem → Bool) (it : PostItem)
    (h : it ∈ Store.values (List.filter p s)) : it ∈ Store.values s := by
  unfold Store.values at h ⊢
  simp only [List.mem_map] at h ⊢
  obtain ⟨q, hq, rfl⟩ := h
  exact ⟨q, List.mem_of_mem_filter hq, rfl⟩

/-- A one-item update transaction either applies its update under its
passed condition or cancels leaving the store unchanged. -/
theorem transact_single_update (s : Store) (k : String) (cond : PostItem → Bool)
    (upd : PostItem → PostItem) :
    transactWriteItems s [.update k cond upd] =
      (match s.get k with
       | some it => if cond it then (s.put k (upd it), none) else (s, some .transactionCanceled)
       | none => (s, some .transactionCanceled)) := by
  rcases hg : s.get k with _ | it
  · simp [transactWriteItems, transactWriteItems.go, runTransactItem, hg]
  · by_cases hc : cond it = true <;>
      simp [transactWriteItems, transactWriteItems.go, runTransactItem, hg, hc]

/-- One decrement call keeps every counter of every record
non-negative. -/
theorem dec_call_nonneg (s : Store) (c : DecCall) (h : StoreCountersNonneg s) :
    StoreCountersNonneg (applyDecCall s c) := by
  have main : ∀ (k : String) (cond : PostItem → Bool) (upd : PostItem → PostItem)
      (fail_soft : Bool),
      (∀ it, it ∈ Store.values s → cond it = true → CountersNonneg (upd it)) →
      StoreCountersNonneg (PostDynamo.runDecrement s (.update k cond upd) fail_soft).store := by
    intro k cond upd fail_soft hupd
    unfold PostDynamo.runDecrement
    rw [transact_single_update]
    rcases hg : s.get k with _ | it
    · rcases fail_soft with _ | _ <;> simpa using h
    · by_cases hc : cond it = true
      · simp only [hc, if_true]
        intro x hx
        rw [store_values_put] at hx
        rcases List.mem_cons.mp hx with rfl | hmem
        · exact hupd it (by
            unfold Store.values
            exact List.mem_map_of_mem _ (store_get_mem s k it hg)) hc
        · exact h x (values_filter_subset s _ x hmem)
      · have hc2 : cond it = false := by simpa using hc
        rcases fail_soft with _ | _ <;> simp [hc2] <;> exact h
  rcases c with ⟨pid, soft⟩ | ⟨pid, ls, soft⟩ | ⟨pid, soft⟩
  · unfold applyDecCall PostDynamo.decrement_flag_count PostDynamo.transact_decrement_flag_count
    refine main pid _ _ soft ?_
    intro it hmem hcond
    have hnn := h it hmem
    rcases hn : it.flagCount with _ | n
    · rw [hn] at hcond
      cases hcond
    · rw [hn] at hcond
      have hpos : 0 < n := by simpa using hcond
      refine ⟨?_, hnn.2.1, hnn.2.2.1, hnn.2.2.2⟩
      simp [hn]
      omega
  · unfold applyDecCall PostDynamo.decrement_like_count PostDynamo.transact_decrement_like_count
    by_cases h1 : (ls == LikeStatus.ONYMOUSLY_LIKED) = true
    · simp only [h1, if_true]
      refine main pid _ _ soft ?_
      intro it hmem hcond
      have hnn := h it hmem
      rcases hn : it.onymousLikeCount with _ | n
      · rw [hn] at hcond
        cases hcond
      · rw [hn] at hcond
        have hpos : 0 < n := by simpa using hcond
        refine ⟨hnn.1, ?_, hnn.2.2.1, hnn.2.2.2⟩
        simp [hn]
        omega
    · simp only [h1, Bool.false_eq_true, if_false]
      by_cases h2 : (ls == LikeStatus.ANONYMOUSLY_LIKED) = true
      · simp only [h2, if_true]
        refine main pid _ _ soft ?_
        intro it hmem hcond
        have hnn := h it hmem
        rcases hn : it.anonymousLikeCount with _ | n
        · rw [hn] at hcond
          cases hcond
        · rw [hn] at hcond
          have hpos : 0 < n := by simpa using hcond
          refine ⟨hnn.1, hnn.2.1, ?_, hnn.2.2.2⟩
          simp [hn]
          omega
      · simp only [h2, Bool.false_eq_true, if_false]
        exact h
  · unfold applyDecCall PostDynamo.decrement_comment_count
      PostDynamo.transact_decrement_comment_count
    refine main pid _ _ soft ?_
    intro it hmem hcond
    have hnn := h it hmem
    rcases hn : it.commentCount with _ | n
    · rw [hn] at hcond
      cases hcond
    · rw [hn] at hcond
      have hpos : 0 < n := by simpa using hcond
      refine ⟨hnn.1, hnn.2.1, hnn.2.2.1, ?_⟩
      simp [hn]
      omega

/-- A decrement whose condition fails on the stored record leaves the
store unchanged: fail-hard surfaces the canceled transaction, fail-soft
logs and returns absent. -/
theorem runDec_fail (s : Store) (k : String) (cond : PostItem → Bool)
    (upd : PostItem → PostItem) (hc : ∀ it, s.get k = some it → cond it = false) :
    PostDynamo.runDecrement s (.update k cond upd) false =
      { store := s, result := none, warned := false, err := some .transactionCanceled } ∧
    PostDynamo.runDecrement s (.update k cond upd) true =
      { store := s, result := none, warned := true, err := none } := by
  unfold PostDynamo.runDecrement
  simp only [transact_single_update]
  rcases hg : s.get k with _ | it
  · simp
  · simp [hc it hg]

/-- Any sequence of decrement calls keeps every counter non-negative. -/
theorem dec_calls_nonneg : ∀ (cs : List DecCall) (s : Store), StoreCountersNonneg s →
    StoreCountersNonneg (applyDecCalls s cs)
  | [], _, h => h
  | c :: cs, s, h => dec_calls_nonneg cs (applyDecCall s c) (dec_call_nonneg s c h)

/-- C4: a decrement of any counter issued while the stored value is zero
or absent fails its condition: fail-hard surfaces the error, fail-soft
logs a warning and returns absent, the store unchanged either way; and no
sequence of decrement calls ever drives a stored counter below zero. -/
theorem counter_decrement_floor (s : Store) :
    (∀ pid, (∀ it, s.get pid = some it → it.flagCount.getD 0 ≤ 0) →
      PostDynamo.decrement_flag_count s pid false =
        { store := s, result := none, warned := false, err := some .transactionCanceled } ∧
      PostDynamo.decrement_flag_count s pid true =
        { store := s, result := none, warned := true, err := none }) ∧
    (∀ pid, (∀ it, s.get pid = some it → it.commentCount.getD 0 ≤ 0) →
      PostDynamo.decrement_comment_count s pid false =
        { store := s, result := none, warned := false, err := some .transactionCanceled } ∧
      PostDynamo.decrement_comment_count s pid true =
        { store := s, result := none, warned := true, err := none }) ∧
    (∀ pid, (∀ it, s.get pid = some it → it.onymousLikeCount.getD 0 ≤ 0) →
      PostDynamo.decrement_like_count s pid LikeStatus.ONYMOUSLY_LIKED false =
        { store := s, result := none, warned := false, err := some .transactionCanceled } ∧
      PostDynamo.decrement_like_count s pid LikeStatus.ONYMOUSLY_LIKED true =
        { store := s, result := none, warned := true, err := none }) ∧
    (∀ pid, (∀ it, s.get pid = some it → it.anonymousLikeCount.getD 0 ≤ 0) →
      PostDynamo.decrement_like_count s pid LikeStatus.ANONYMOUSLY_LIKED false =
        { store := s, result := none, warned := false, err := some .transactionCanceled } ∧
      PostDynamo.decrement_like_count s pid LikeStatus.ANONYMOUSLY_LIKED true =
        { store := s, result := none, warned := true, err := none }) ∧
    (StoreCountersNonneg s → ∀ cs, StoreCountersNonneg (applyDecCalls s cs)) := by
  refine ⟨?_, ?_, ?_, ?_, fun h cs => dec_calls_nonneg cs s h⟩
  · intro pid hz
    unfold PostDynamo.decrement_flag_count PostDynamo.transact_decrement_flag_count
    refine runDec_fail s pid _ _ ?_
    intro it hg
    rcases hn : it.flagCount with _ | n
    · simp [hn]
    · have := hz it hg
      rw [hn] at this
      simp only [Option.getD_some] at this
      simp only [hn, decide_eq_false_iff_not]
      omega
  · intro pid hz
    unfold PostDynamo.decrement_comment_count PostDynamo.transact_decrement_comment_count
    refine runDec_fail s pid _ _ ?_
    intro it hg
    rcases hn : it.commentCount with _ | n
    · simp [hn]
    · have := hz it hg
      rw [hn] at this
      simp only [Option.getD_some] at this
      simp only [hn, decide_eq_false_iff_not]
      omega
  · intro pid hz
    unfold PostDynamo.decrement_like_count PostDynamo.transact_decrement_like_count
    simp only [show (LikeStatus.ONYMOUSLY_LIKED == LikeStatus.ONYMOUSLY_LIKED) = true from
      by decide, if_true]
    refine runDec_fail s pid _ _ ?_
    intro it hg
    rcases hn : it.onymousLikeCount with _ | n
    · simp [hn]
    · have := hz it hg
      rw [hn] at this
      simp only [Option.getD_some] at this
      simp only [hn, decide_eq_false_iff_not]
      omega
  · intro pid hz
    unfold PostDynamo.decrement_like_count PostDynamo.transact_decrement_like_count
    simp only [show (LikeStatus.ANONYMOUSLY_LIKED == LikeStatus.ONYMOUSLY_LIKED) = false from
      by decide, show (LikeStatus.ANONYMOUSLY_LIKED == LikeStatus.ANONYMOUSLY_LIKED) = true from
      by decide, Bool.false_eq_true, if_false, if_true]
    refine runDec_fail s pid _ _ ?_
    intro it hg
    rcases hn : it.anonymousLikeCount with _ | n
    · simp [hn]
    · have := hz it hg
      rw [hn] at this
      simp only [Option.getD_some] at this
      simp only [hn, decide_eq_false_iff_not]
      omega

/-- C4 witness: on a concrete store with a fresh post, decrementing the
absent flag count fails hard and soft with the store unchanged, and a
sequence of decrements keeps all counters non-negative. -/
theorem counter_decrement_floor_witness :
    PostDynamo.decrement_flag_count [("p1", samplePending "p1" "u1" none none)] "p1" false =
      { store := [("p1", samplePending "p1" "u1" none none)], result := none, warned := false
        err := some .transactionCanceled } ∧
    PostDynamo.decrement_flag_count [("p1", samplePending "p1" "u1" none none)] "p1" true =
      { store := [("p1", samplePending "p1" "u1" none none)], result := none, warned := true
        err := none } ∧
    StoreCountersNonneg
      (applyDecCalls [("p1", samplePending "p1" "u1" none none)]
        [.flag "p1" false, .comment "p1" true]) := by
  have hz : ∀ it, Store.get [("p1", samplePending "p1" "u1" none none)] "p1" = some it →
      it.flagCount.getD 0 ≤ 0 := by
    intro it hit
    have heq : samplePending "p1" "u1" none none = it := by
      simpa [Store.get, List.lookup] using hit
    rw [← heq]
    decide
  have h := counter_decrement_floor [("p1", samplePending "p1" "u1" none none)]
  exact ⟨(h.1 "p1" hz).1, (h.1 "p1" hz).2,
    h.2.2.2.2 (by decide) [.flag "p1" false, .comment "p1" true]⟩

/-- C5: the per-day expired-post-keys query returns exactly the primary
keys of the records whose expiry day entry is on the given day with
time-of-day strictly below the cut off (half-open: equal is excluded),
ordered ascending by time-of-day; with no cut off it returns all entries
of the day. -/
theorem expired_day_query_halfopen (s : Store) (date : String) (t : String) :
    (∃ L : List PostItem,
      PostDynamo.generate_expired_post_pks_by_day s date (some t) =
        L.map (fun it => (it.partitionKey, it.sortKey)) ∧
      List.Sorted (skRel GSI_K1) L ∧
      ∀ it, it ∈ L ↔ it ∈ Store.values s ∧
        it.gsiK1PartitionKey = some ("post/" ++ date) ∧
        ∃ tod, it.gsiK1SortKey = some tod ∧ strLt tod t) ∧
    (∃ L : List PostItem,
      PostDynamo.generate_expired_post_pks_by_day s date none =
        L.map (fun it => (it.partitionKey, it.sortKey)) ∧
      List.Sorted (skRel GSI_K1) L ∧
      ∀ it, it ∈ L ↔ it ∈ Store.values s ∧
        it.gsiK1PartitionKey = some ("post/" ++ date) ∧ it.gsiK1SortKey.isSome = true) := by
  constructor
  · refine ⟨s.query GSI_K1 [⟨"gsiK1PartitionKey", .eqS ("post/" ++ date)⟩,
      ⟨"gsiK1SortKey", .ltS t⟩] (fun _ => true), rfl, query_sorted s _ _ _, ?_⟩
    intro it
    rw [mem_query]
    simp only [inGsi_K1, List.all_cons, List.all_nil, Bool.and_true, Bool.and_eq_true]
    rcases hpk : it.gsiK1PartitionKey with _ | a <;>
      rcases hsk : it.gsiK1SortKey with _ | b <;>
      simp [KeyCond.eval, attr_gsiK1Pk, attr_gsiK1Sk, hpk, hsk, strLt]
  · refine ⟨s.query GSI_K1 [⟨"gsiK1PartitionKey", .eqS ("post/" ++ date)⟩] (fun _ => true),
      rfl, query_sorted s _ _ _, ?_⟩
    intro it
    rw [mem_query]
    simp only [inGsi_K1, List.all_cons, List.all_nil, Bool.and_true, Bool.and_eq_true]
    rcases hpk : it.gsiK1PartitionKey with _ | a <;>
      rcases hsk : it.gsiK1SortKey with _ | b <;>
      simp [KeyCond.eval, attr_gsiK1Pk, attr_gsiK1Sk, hpk, hsk]

/-- C5 witness: two same-day entries at ten and sixteen hours; the noon
cut off returns only the earlier key, a cut off equal to an entry excludes
it, and no cut off returns both in ascending order. -/
theorem expired_day_query_halfopen_witness :
    (∃ L : List PostItem,
      PostDynamo.generate_expired_post_pks_by_day
          [("p1", samplePending "p1" "u1" (some ⟨"2020-01-02", "10:00:00"⟩) none),
           ("p2", samplePending "p2" "u1" (some ⟨"2020-01-02", "16:00:00"⟩) none)]
          "2020-01-02" (some "12:00:00") =
        L.map (fun it => (it.partitionKey, it.sortKey)) ∧
      List.Sorted (skRel GSI_K1) L ∧
      ∀ it, it ∈ L ↔ it ∈ Store.values
          [("p1", samplePending "p1" "u1" (some ⟨"2020-01-02", "10:00:00"⟩) none),
           ("p2", samplePending "p2" "u1" (some ⟨"2020-01-02", "16:00:00"⟩) none)] ∧
        it.gsiK1PartitionKey = some ("post/" ++ "2020-01-02") ∧
        ∃ tod, it.gsiK1SortKey = some tod ∧ strLt tod "12:00:00") ∧
    PostDynamo.generate_expired_post_pks_by_day
        [("p1", samplePending "p1" "u1" (some ⟨"2020-01-02", "10:00:00"⟩) none),
         ("p2", samplePending "p2" "u1" (some ⟨"2020-01-02", "16:00:00"⟩) none)]
        "2020-01-02" (some "12:00:00") = [("post/p1", "-")] ∧
    PostDynamo.generate_expired_post_pks_by_day
        [("p1", samplePending "p1" "u1" (some ⟨"2020-01-02", "10:00:00"⟩) none),
         ("p2", samplePending "p2" "u1" (some ⟨"2020-01-02", "16:00:00"⟩) none)]
        "2020-01-02" (some "10:00:00") = [] ∧
    PostDynamo.generate_expired_post_pks_by_day
        [("p1", samplePending "p1" "u1" (some ⟨"2020-01-02", "10:00:00"⟩) none),
         ("p2", samplePending "p2" "u1" (some ⟨"2020-01-02", "16:00:00"⟩) none)]
        "2020-01-02" none = [("post/p1", "-"), ("post/p2", "-")] :=
  ⟨(expired_day_query_halfopen
      [("p1", samplePending "p1" "u1" (some ⟨"2020-01-02", "10:00:00"⟩) none),
       ("p2", samplePending "p2" "u1" (some ⟨"2020-01-02", "16:00:00"⟩) none)]
      "2020-01-02" "12:00:00").1,
   by decide, by decide, by decide⟩

/-- On a present record and a non-empty checksum, set_checksum writes the
checksum projection of the record. -/
theorem set_checksum_success (s : Store) (pid pa c : String) (it : PostItem) (hc : c ≠ "")
    (hget : s.get pid = some it) :
    PostDynamo.set_checksum s pid pa (some c) =
      (s.put pid (PostDynamo.checksumUpd pa (some c) it),
        .ok (PostDynamo.checksumUpd pa (some c) it)) := by
  unfold PostDynamo.set_checksum clientUpdateItem
  have ht : optTruthy (some c) = true := by simp [optTruthy, hc]
  simp [ht, hget]

/-- When the checksum partition holds exactly two entries, the first-with-
checksum lookup returns the one with the earlier sort key. -/
theorem first_with_checksum_two (s2 : Store) (c a1 a2 : String) (q1 q2 : PostItem)
    (hq1pk : q1.gsiK2PartitionKey = some ("postChecksum/" ++ c))
    (hq2pk : q2.gsiK2PartitionKey = some ("postChecksum/" ++ c))
    (hsk1 : q1.gsiK2SortKey = some a1) (hsk2 : q2.gsiK2SortKey = some a2)
    (hlt : strLt a1 a2)
    (hmem : ∀ x, (x ∈ Store.values s2 ∧
        x.gsiK2PartitionKey = some ("postChecksum/" ++ c)) ↔ (x = q1 ∨ x = q2)) :
    PostDynamo.get_first_with_checksum s2 c =
      ((splitChar '/' q1.partitionKey)[1]?, some a1) := by
  have hmemq : ∀ x, x ∈ s2.query GSI_K2
      [⟨"gsiK2PartitionKey", .eqS ("postChecksum/" ++ c)⟩] (fun _ => true) ↔
      (x = q1 ∨ x = q2) := by
    intro x
    rw [mem_query]
    constructor
    · rintro ⟨hv, hcond, -⟩
      apply (hmem x).mp
      refine ⟨hv, ?_⟩
      rcases hpk : x.gsiK2PartitionKey with _ | a
      · rw [inGsi_K2] at hcond
        simp [hpk] at hcond
      · simp [inGsi_K2, KeyCond.eval, attr_gsiK2Pk, hpk] at hcond
        rw [hcond.2]
    · rintro (rfl | rfl)
      · refine ⟨((hmem x).mpr (Or.inl rfl)).1, ?_, rfl⟩
        simp [inGsi_K2, KeyCond.eval, attr_gsiK2Pk, hq1pk, hsk1]
      · refine ⟨((hmem x).mpr (Or.inr rfl)).1, ?_, rfl⟩
        simp [inGsi_K2, KeyCond.eval, attr_gsiK2Pk, hq2pk, hsk2]
  have hperm := List.perm_insertionSort (skRel GSI_K2)
    ((Store.values s2).filter (fun it => inGsi GSI_K2 it &&
      [(⟨"gsiK2PartitionKey", .eqS ("postChecksum/" ++ c)⟩ : KeyCond)].all
        (fun cd => cd.eval it)) |>.filter (fun _ => true))
  unfold PostDynamo.get_first_with_checksum
  rcases hhead : (s2.query GSI_K2
      [⟨"gsiK2PartitionKey", .eqS ("postChecksum/" ++ c)⟩] (fun _ => true)).head? with _ | q
  · exfalso
    have hq1m : q1 ∈ s2.query GSI_K2
        [⟨"gsiK2PartitionKey", .eqS ("postChecksum/" ++ c)⟩] (fun _ => true) :=
      (hmemq q1).mpr (Or.inl rfl)
    rw [List.head?_eq_none_iff] at hhead
    rw [hhead] at hq1m
    simp at hq1m
  · have hmin := insertionSort_head_min (g := GSI_K2) hhead
    have hqm : q ∈ s2.query GSI_K2
        [⟨"gsiK2PartitionKey", .eqS ("postChecksum/" ++ c)⟩] (fun _ => true) :=
      hperm.mem_iff.mpr hmin.1
    have hq1raw : q1 ∈ ((Store.values s2).filter (fun it => inGsi GSI_K2 it &&
        [(⟨"gsiK2PartitionKey", .eqS ("postChecksum/" ++ c)⟩ : KeyCond)].all
          (fun cd => cd.eval it)) |>.filter (fun _ => true)) :=
      hperm.mem_iff.mp ((hmemq q1).mpr (Or.inl rfl))
    rcases (hmemq q).mp hqm with rfl | rfl
    · show ((splitChar '/' q.partitionKey)[1]?, q.gsiK2SortKey) =
        ((splitChar '/' q.partitionKey)[1]?, some a1)
      rw [hsk1]
    · exfalso
      have hrel := hmin.2 q1 hq1raw
      simp [skRel, skOf, GSI_K2, attr_gsiK2Sk, hsk1, hsk2, AttrV.leB] at hrel
      exact absurd hrel (not_le.mpr hlt)

/-- The records after two writes under distinct keys: the two new records
plus the untouched survivors. -/
theorem twoput_values (s : Store) (kA kB : String) (vA vB : PostItem)
    (hwf : Store.Wf s) (hA : vA.postId = kA) (hB : vB.postId = kB) (hne : kA ≠ kB) :
    ∀ x, x ∈ Store.values ((s.put kA vA).put kB vB) ↔
      (x = vB ∨ x = vA ∨
        (x ∈ Store.values s ∧ x.postId ≠ kA ∧ x.postId ≠ kB)) := by
  intro x
  rw [store_values_put, values_filter_key _ _ (wf_put s kA vA hwf hA), store_values_put,
    values_filter_key _ _ hwf]
  have hAB : (vA.postId == kB) = false := by simp [hA, hne]
  simp only [List.mem_cons, List.filter_cons, hAB, Bool.not_false, if_true, cond_true,
    List.mem_filter, List.filter_filter]
  constructor
  · rintro (rfl | rfl | ⟨hm, hb⟩)
    · exact Or.inl rfl
    · exact Or.inr (Or.inl rfl)
    · simp only [Bool.and_eq_true, Bool.not_eq_true', beq_eq_false_iff_ne] at hb
      exact Or.inr (Or.inr ⟨hm, hb.2, hb.1⟩)
  · rintro (rfl | rfl | ⟨hm, hka, hkb⟩)
    · exact Or.inl rfl
    · exact Or.inr (Or.inl rfl)
    · refine Or.inr (Or.inr ⟨hm, ?_⟩)
      simp [hka, hkb]

/-- C6: with two posts sharing a checksum and distinct postedAt, after
set_checksum has run for both, in either order, the first-with-checksum
lookup returns the post with the earlier postedAt. -/
theorem checksum_first_earliest (s : Store) (p1 p2 : PostItem) (c : String)
    (hwf : Store.Wf s)
    (h1 : s.get p1.postId = some p1) (h2 : s.get p2.postId = some p2)
    (hne : p1.postId ≠ p2.postId)
    (hsplit : (splitChar '/' p1.partitionKey)[1]? = some p1.postId)
    (hlt : strLt p1.postedAt p2.postedAt)
    (hother : ∀ it ∈ Store.values s, it.gsiK2PartitionKey ≠ some ("postChecksum/" ++ c))
    (hc : c ≠ "") :
    PostDynamo.get_first_with_checksum
        (PostDynamo.set_checksum (PostDynamo.set_checksum s p1.postId p1.postedAt (some c)).1
          p2.postId p2.postedAt (some c)).1 c = (some p1.postId, some p1.postedAt) ∧
    PostDynamo.get_first_with_checksum
        (PostDynamo.set_checksum (PostDynamo.set_checksum s p2.postId p2.postedAt (some c)).1
          p1.postId p1.postedAt (some c)).1 c = (some p1.postId, some p1.postedAt) := by
  constructor
  · rw [set_checksum_success s p1.postId p1.postedAt c p1 hc h1]
    have hget2 : (s.put p1.postId (PostDynamo.checksumUpd p1.postedAt (some c) p1)).get
        p2.postId = some p2 := by
      rw [store_get_put_ne _ _ _ _ (Ne.symm hne)]
      exact h2
    rw [set_checksum_success _ p2.postId p2.postedAt c p2 hc hget2]
    have htwo := twoput_values s p1.postId p2.postId
      (PostDynamo.checksumUpd p1.postedAt (some c) p1)
      (PostDynamo.checksumUpd p2.postedAt (some c) p2) hwf rfl rfl hne
    have hmeme : ∀ x, (x ∈ Store.values
        ((s.put p1.postId (PostDynamo.checksumUpd p1.postedAt (some c) p1)).put p2.postId
          (PostDynamo.checksumUpd p2.postedAt (some c) p2)) ∧
        x.gsiK2PartitionKey = some ("postChecksum/" ++ c)) ↔
        (x = PostDynamo.checksumUpd p1.postedAt (some c) p1 ∨
         x = PostDynamo.checksumUpd p2.postedAt (some c) p2) := by
      intro x
      constructor
      · rintro ⟨hv, hpk⟩
        rcases (htwo x).mp hv with rfl | rfl | ⟨hm, -, -⟩
        · exact Or.inr rfl
        · exact Or.inl rfl
        · exact absurd hpk (hother x hm)
      · rintro (rfl | rfl)
        · exact ⟨(htwo _).mpr (Or.inr (Or.inl rfl)), rfl⟩
        · exact ⟨(htwo _).mpr (Or.inl rfl), rfl⟩
    have hcf := first_with_checksum_two _ c p1.postedAt p2.postedAt
      (PostDynamo.checksumUpd p1.postedAt (some c) p1)
      (PostDynamo.checksumUpd p2.postedAt (some c) p2) rfl rfl rfl rfl hlt hmeme
    rw [hcf]
    rw [show (splitChar '/'
        (PostDynamo.checksumUpd p1.postedAt (some c) p1).partitionKey)[1]? =
      some p1.postId from hsplit]
  · rw [set_checksum_success s p2.postId p2.postedAt c p2 hc h2]
    have hget1 : (s.put p2.postId (PostDynamo.checksumUpd p2.postedAt (some c) p2)).get
        p1.postId = some p1 := by
      rw [store_get_put_ne _ _ _ _ hne]
      exact h1
    rw [set_checksum_success _ p1.postId p1.postedAt c p1 hc hget1]
    have htwo := twoput_values s p2.postId p1.postId
      (PostDynamo.checksumUpd p2.postedAt (some c) p2)
      (PostDynamo.checksumUpd p1.postedAt (some c) p1) hwf rfl rfl (Ne.symm hne)
    have hmeme : ∀ x, (x ∈ Store.values
        ((s.put p2.postId (PostDynamo.checksumUpd p2.postedAt (some c) p2)).put p1.postId
          (PostDynamo.checksumUpd p1.postedAt (some c) p1)) ∧
        x.gsiK2PartitionKey = some ("postChecksum/" ++ c)) ↔
        (x = PostDynamo.checksumUpd p1.postedAt (some c) p1 ∨
         x = PostDynamo.checksumUpd p2.postedAt (some c) p2) := by
      intro x
      constructor
      · rintro ⟨hv, hpk⟩
        rcases (htwo x).mp hv with rfl | rfl | ⟨hm, -, -⟩
        · exact Or.inl rfl
        · exact Or.inr rfl
        · exact absurd hpk (hother x hm)
      · rintro (rfl | rfl)
        · exact ⟨(htwo _).mpr (Or.inl rfl), rfl⟩
        · exact ⟨(htwo _).mpr (Or.inr (Or.inl rfl)), rfl⟩
    have hcf := first_with_checksum_two _ c p1.postedAt p2.postedAt
      (PostDynamo.checksumUpd p1.postedAt (some c) p1)
      (PostDynamo.checksumUpd p2.postedAt (some c) p2) rfl rfl rfl rfl hlt hmeme
    rw [hcf]
    rw [show (splitChar '/'
        (PostDynamo.checksumUpd p1.postedAt (some c) p1).partitionKey)[1]? =
      some p1.postId from hsplit]

/-- C6 witness: two concrete posts, the same checksum set in both orders,
the lookup returns the earlier post both times. -/
theorem checksum_first_earliest_witness :
    PostDynamo.get_first_with_checksum
        (PostDynamo.set_checksum
          (PostDynamo.set_checksum
            [("p1", samplePending "p1" "u1" none none),
             ("p2", { samplePending "p2" "u1" none none with
                postedAt := "2020-01-02T10:00:00+00:00" })]
            "p1" "2020-01-01T10:00:00+00:00" (some "csum")).1
          "p2" "2020-01-02T10:00:00+00:00" (some "csum")).1 "csum" =
      (some "p1", some "2020-01-01T10:00:00+00:00") ∧
    PostDynamo.get_first_with_checksum
        (PostDynamo.set_checksum
          (PostDynamo.set_checksum
            [("p1", samplePending "p1" "u1" none none),
             ("p2", { samplePending "p2" "u1" none none with
                postedAt := "2020-01-02T10:00:00+00:00" })]
            "p2" "2020-01-02T10:00:00+00:00" (some "csum")).1
          "p1" "2020-01-01T10:00:00+00:00" (some "csum")).1 "csum" =
      (some "p1", some "2020-01-01T10:00:00+00:00") := by
  have h := checksum_first_earliest
    [("p1", samplePending "p1" "u1" none none),
     ("p2", { samplePending "p2" "u1" none none with postedAt := "2020-01-02T10:00:00+00:00" })]
    (samplePending "p1" "u1" none none)
    { samplePending "p2" "u1" none none with postedAt := "2020-01-02T10:00:00+00:00" }
    "csum" (by decide) (by decide) (by decide) (by decide) (by decide) (by decide)
    (by decide) (by decide)
  exact h

/-- C1 counterexample: a post without an album is archived successfully,
and afterwards its album-rank index entry is absent, not present with the
sentinel -1 as the claim states for an absent albumId. -/
theorem index_consistency_counterexample :
    (PostDynamo.transact_set_post_status (samplePending "p1" "u1" none none)
      PostStatus.ARCHIVED none none).isOk = true ∧
    (runTransact [("p1", samplePending "p1" "u1" none none)]
        (PostDynamo.transact_set_post_status (samplePending "p1" "u1" none none)
          PostStatus.ARCHIVED none none)).2 = none ∧
    ((runTransact [("p1", samplePending "p1" "u1" none none)]
        (PostDynamo.transact_set_post_status (samplePending "p1" "u1" none none)
          PostStatus.ARCHIVED none none)).1.get "p1").map
        (fun it => (it.albumId, it.postStatus, it.gsiK3SortKey)) =
      some (none, PostStatus.ARCHIVED, none) := by
  refine ⟨?_, ?_, ?_⟩ <;> decide

/-- C1 amended: after a successful status-set or album-set, the
owner-status sort key is the status-qualified postedAt of the current
postStatus, and the album-rank entry is absent when the albumId is absent,
is the sentinel -1 when the albumId is present and the status is not
COMPLETED, and is the supplied rank when the albumId is present and the
status is COMPLETED. -/
theorem index_consistency_amended :
    (∀ (s : Store) (post_item : PostItem) (status : String) (opi : Option String)
        (ar : Option Rat) (t : TransactItem) (s2 : Store),
      s.get post_item.postId = some post_item →
      (optTruthy post_item.albumId = false → post_item.gsiK3SortKey = none) →
      PostDynamo.transact_set_post_status post_item status opi ar = .ok t →
      transactWriteItems s [t] = (s2, none) →
      ∃ it2, s2.get post_item.postId = some it2 ∧
        it2.postStatus = status ∧
        it2.gsiA2SortKey = status ++ "/" ++ post_item.postedAt ∧
        (optTruthy it2.albumId = false → it2.gsiK3SortKey = none) ∧
        (optTruthy it2.albumId = true → status ≠ PostStatus.COMPLETED →
          it2.gsiK3SortKey = some (-1)) ∧
        (optTruthy it2.albumId = true → status = PostStatus.COMPLETED →
          it2.gsiK3SortKey = ar)) ∧
    (∀ (s : Store) (post_item : PostItem) (aid : Option String) (ar : Option Rat)
        (t : TransactItem) (s2 : Store),
      s.get post_item.postId = some post_item →
      post_item.gsiA2SortKey = post_item.postStatus ++ "/" ++ post_item.postedAt →
      PostDynamo.transact_set_album_id post_item aid ar = .ok t →
      transactWriteItems s [t] = (s2, none) →
      ∃ it2, s2.get post_item.postId = some it2 ∧
        it2.postStatus = post_item.postStatus ∧
        it2.gsiA2SortKey = it2.postStatus ++ "/" ++ post_item.postedAt ∧
        (optTruthy aid = false → it2.albumId = none ∧ it2.gsiK3SortKey = none) ∧
        (optTruthy aid = true → it2.albumId = aid ∧
          (it2.postStatus ≠ PostStatus.COMPLETED → it2.gsiK3SortKey = some (-1)) ∧
          (it2.postStatus = PostStatus.COMPLETED → it2.gsiK3SortKey = ar))) := by
  constructor
  · intro s post_item status opi ar t s2 hget hk3 hok hrun
    unfold PostDynamo.transact_set_post_status at hok
    by_cases hb : (ar.isSome !=
        (optTruthy post_item.albumId && (status == PostStatus.COMPLETED))) = true
    · rw [if_pos hb] at hok
      cases hok
    · rw [if_neg hb] at hok
      cases hok
      have hmatch : ar.isSome = (optTruthy post_item.albumId &&
          (status == PostStatus.COMPLETED)) := bne_eq_false_iff_eq.mp (by simpa using hb)
      rw [transact_single_update, hget] at hrun
      simp only [if_true] at hrun
      have hs2 : s2 = s.put post_item.postId
          (PostDynamo.statusSetUpd post_item status opi (ar.getD (-1)) post_item) := by
        have := congrArg Prod.fst hrun
        exact this.symm
      subst hs2
      refine ⟨_, store_get_put_self _ _ _, ?_⟩
      by_cases halb : optTruthy post_item.albumId = true
      · by_cases hcomp : status = PostStatus.COMPLETED
        · have har : ar.isSome = true := by
            rw [hmatch, halb]
            simp [hcomp]
          rcases hra : ar with _ | r
          · rw [hra] at har
            cases har
          · by_cases hop : optTruthy opi = true <;>
              rcases hea : post_item.expiresAt with _ | ea <;>
              simp [PostDynamo.statusSetUpd, halb, hcomp, hop, hea, Bool.not_eq_true]
        · have har : ar.isSome = false := by
            rw [hmatch, halb]
            simp [hcomp]
          rcases hra : ar with _ | r
          · by_cases hop : optTruthy opi = true <;>
              rcases hea : post_item.expiresAt with _ | ea <;>
              simp [PostDynamo.statusSetUpd, halb, hcomp, hop, hea, Bool.not_eq_true]
          · rw [hra] at har
            cases har
      · have halb2 : optTruthy post_item.albumId = false := by
          simpa using halb
        by_cases hop : optTruthy opi = true <;>
          rcases hea : post_item.expiresAt with _ | ea <;>
          simp [PostDynamo.statusSetUpd, halb2, hop, hea, Bool.not_eq_true, hk3 halb2]
  · intro s post_item aid ar t s2 hget hA2 hok hrun
    unfold PostDynamo.transact_set_album_id at hok
    by_cases hb : (ar.isSome !=
        (optTruthy aid && (post_item.postStatus == PostStatus.COMPLETED))) = true
    · rw [if_pos hb] at hok
      cases hok
    · rw [if_neg hb] at hok
      have hmatch : ar.isSome = (optTruthy aid &&
          (post_item.postStatus == PostStatus.COMPLETED)) :=
        bne_eq_false_iff_eq.mp (by simpa using hb)
      by_cases haid : optTruthy aid = true
      · rw [if_pos haid] at hok
        cases hok
        rw [transact_single_update, hget] at hrun
        simp only [beq_self_eq_true, if_true] at hrun
        have hs2 : s2 = s.put post_item.postId
            (PostDynamo.albumSetUpd aid (ar.getD (-1)) post_item) := by
          have := congrArg Prod.fst hrun
          exact this.symm
        subst hs2
        refine ⟨_, store_get_put_self _ _ _, ?_⟩
        by_cases hcomp : post_item.postStatus = PostStatus.COMPLETED
        · have har : ar.isSome = true := by
            rw [hmatch, haid]
            simp [hcomp]
          rcases hra : ar with _ | r
          · rw [hra] at har
            cases har
          · simp [PostDynamo.albumSetUpd, haid, hcomp, hA2]
        · have har : ar.isSome = false := by
            rw [hmatch, haid]
            simp [hcomp]
          rcases hra : ar with _ | r
          · simp [PostDynamo.albumSetUpd, haid, hcomp, hA2]
          · rw [hra] at har
            cases har
      · rw [if_neg haid] at hok
        cases hok
        rw [transact_single_update, hget] at hrun
        simp only [if_true] at hrun
        have hs2 : s2 = s.put post_item.postId (PostDynamo.albumClearUpd post_item) := by
          have := congrArg Prod.fst hrun
          exact this.symm
        subst hs2
        refine ⟨_, store_get_put_self _ _ _, ?_⟩
        have haid2 : optTruthy aid = false := by simpa using haid
        simp [PostDynamo.albumClearUpd, haid2, hA2]

/-- C1 witness: completing an album post with rank one half leaves the
rank entry at one half, and the owner-status key carries the new
status. -/
theorem index_consistency_amended_witness :
    ∃ it2, (transactWriteItems [("p1", samplePending "p1" "u1" none (some "aid"))]
        [.update "p1" (fun _ => true)
          (PostDynamo.statusSetUpd (samplePending "p1" "u1" none (some "aid"))
            PostStatus.COMPLETED none ((1 : Rat)/2))]).1.get "p1" = some it2 ∧
      it2.postStatus = PostStatus.COMPLETED ∧
      it2.gsiK3SortKey = some ((1 : Rat)/2) := by
  have hok : PostDynamo.transact_set_post_status (samplePending "p1" "u1" none (some "aid"))
      PostStatus.COMPLETED none (some ((1 : Rat)/2)) =
      .ok (.update (samplePending "p1" "u1" none (some "aid")).postId (fun _ => true)
        (PostDynamo.statusSetUpd (samplePending "p1" "u1" none (some "aid"))
          PostStatus.COMPLETED none ((some ((1 : Rat)/2)).getD (-1)))) := by
    unfold PostDynamo.transact_set_post_status
    rw [if_neg (by decide)]
  have hrun : transactWriteItems [("p1", samplePending "p1" "u1" none (some "aid"))]
      [.update (samplePending "p1" "u1" none (some "aid")).postId (fun _ => true)
        (PostDynamo.statusSetUpd (samplePending "p1" "u1" none (some "aid"))
          PostStatus.COMPLETED none ((some ((1 : Rat)/2)).getD (-1)))] =
      ((transactWriteItems [("p1", samplePending "p1" "u1" none (some "aid"))]
        [.update (samplePending "p1" "u1" none (some "aid")).postId (fun _ => true)
          (PostDynamo.statusSetUpd (samplePending "p1" "u1" none (some "aid"))
            PostStatus.COMPLETED none ((some ((1 : Rat)/2)).getD (-1)))]).1, none) := by
    refine Prod.ext rfl ?_
    rfl
  obtain ⟨it2, hget2, hst, hA2k, hf, hs, hc⟩ :=
    (index_consistency_amended).1 [("p1", samplePending "p1" "u1" none (some "aid"))]
      (samplePending "p1" "u1" none (some "aid")) PostStatus.COMPLETED none
      (some ((1 : Rat)/2)) _ _ (by decide) (by decide) hok hrun
  have hX : (transactWriteItems [("p1", samplePending "p1" "u1" none (some "aid"))]
      [.update (samplePending "p1" "u1" none (some "aid")).postId (fun _ => true)
        (PostDynamo.statusSetUpd (samplePending "p1" "u1" none (some "aid"))
          PostStatus.COMPLETED none ((some ((1 : Rat)/2)).getD (-1)))]).1.get
      (samplePending "p1" "u1" none (some "aid")).postId =
      some (PostDynamo.statusSetUpd (samplePending "p1" "u1" none (some "aid"))
        PostStatus.COMPLETED none ((some ((1 : Rat)/2)).getD (-1))
        (samplePending "p1" "u1" none (some "aid"))) := by
    rfl
  rw [hX] at hget2
  have hit := Option.some.inj hget2
  subst hit
  exact ⟨_, hX, hst, hc (by decide) rfl⟩

/-- A point read in a well-formed store returns a record carrying its own
key as post id. -/
theorem get_postId (s : Store) (hwf : Store.Wf s) (pid : String) (it : PostItem)
    (h : s.get pid = some it) : it.postId = pid :=
  hwf (pid, it) (store_get_mem s pid it h)

/-- The COMPLETED marker concatenation normalizes. -/
theorem completedSlash : (PostStatus.COMPLETED ++ "/" : String) = "COMPLETED/" := by decide

/-- Unpacking a valid set event. -/
theorem eventOk_setExp (uid : String) (s : Store) (pid : String) (ea : Ts)
    (h : FfsManager.EventOk uid s (.setExp pid ea)) :
    pid ≠ "" ∧ ∃ it, s.get pid = some it ∧ it.postedByUserId = uid ∧
      it.postStatus = PostStatus.COMPLETED := by
  unfold FfsManager.EventOk at h
  rw [show FfsManager.eventOkB uid s (.setExp pid ea) =
    ((!(pid == "")) && (s.get pid).elim false
      (fun it => it.postedByUserId == uid && it.postStatus == PostStatus.COMPLETED))
    from rfl] at h
  rcases hg : s.get pid with _ | it
  · rw [hg] at h
    simp at h
  · rw [hg] at h
    simp only [Option.elim_some, Bool.and_eq_true, Bool.not_eq_true', beq_eq_false_iff_ne,
      beq_iff_eq] at h
    exact ⟨h.1, it, rfl, h.2.1, h.2.2⟩

/-- Unpacking a valid remove event. -/
theorem eventOk_remExp (uid : String) (s : Store) (pid : String)
    (h : FfsManager.EventOk uid s (.remExp pid)) :
    pid ≠ "" ∧ ∃ it, s.get pid = some it ∧ it.postedByUserId = uid := by
  unfold FfsManager.EventOk at h
  rw [show FfsManager.eventOkB uid s (.remExp pid) =
    ((!(pid == "")) && (s.get pid).elim false (fun it => it.postedByUserId == uid))
    from rfl] at h
  rcases hg : s.get pid with _ | it
  · rw [hg] at h
    simp at h
  · rw [hg] at h
    simp only [Option.elim_some, Bool.and_eq_true, Bool.not_eq_true', beq_eq_false_iff_ne,
      beq_iff_eq] at h
    exact ⟨h.1, it, rfl, h.2⟩

/-- A record updated by expiryUpd on itself is an active story of its
COMPLETED owner. -/
theorem isActive_expiryUpd (uid : String) (it : PostItem) (ea : Ts)
    (huid : it.postedByUserId = uid) (hst : it.postStatus = PostStatus.COMPLETED) :
    FfsManager.isActiveStory uid (PostDynamo.expiryUpd it ea it) = true := by
  have h1 : (PostDynamo.expiryUpd it ea it).gsiA1PartitionKey = some ("post/" ++ uid) := by
    simp [PostDynamo.expiryUpd, huid]
  have h2 : (PostDynamo.expiryUpd it ea it).gsiA1SortKey =
      some (PostStatus.COMPLETED ++ "/" ++ ea.iso) := by
    simp [PostDynamo.expiryUpd, hst]
  unfold FfsManager.isActiveStory
  rw [inGsi_A1]
  simp [h1, h2, KeyCond.eval, attr_gsiA1Pk, attr_gsiA1Sk]

/-- A record cleared by expiryClear is in no expiry index. -/
theorem notActive_expiryClear (uid : String) (it : PostItem) :
    FfsManager.isActiveStory uid (PostDynamo.expiryClear it) = false := by
  unfold FfsManager.isActiveStory PostDynamo.expiryClear
  rw [inGsi_A1]
  simp

/-- Active stories of a store after a write. -/
theorem activeStories_put (s : Store) (k : String) (v : PostItem) (hwf : Store.Wf s)
    (uid : String) :
    FfsManager.activeStories (s.put k v) uid =
      (if FfsManager.isActiveStory uid v then [v] else []) ++
        (FfsManager.activeStories s uid).filter (fun it => !(it.postId == k)) := by
  have hcomm : List.filter (FfsManager.isActiveStory uid)
      ((Store.values s).filter (fun p => !(p.postId == k))) =
      ((Store.values s).filter (FfsManager.isActiveStory uid)).filter
        (fun p => !(p.postId == k)) := by
    rw [List.filter_filter, List.filter_filter]
    exact List.filter_congr (fun x _ => Bool.and_comm _ _)
  unfold FfsManager.activeStories
  rw [store_values_put, values_filter_key s k hwf, List.filter_cons, hcomm]
  by_cases hv : FfsManager.isActiveStory uid v = true <;> simp [hv]

/-- The next-to-expire query with a non-empty excluded id is the head of
the sorted active stories without that post. -/
theorem get_next_eq (s : Store) (uid pid : String) (hpid : pid ≠ "") :
    PostDynamo.get_next_completed_post_to_expire s uid (some pid) =
      (List.insertionSort (skRel GSI_A1)
        ((FfsManager.activeStories s uid).filter (fun x => !(x.postId == pid)))).head? := by
  have hfun : (fun it => inGsi GSI_A1 it &&
      ([⟨"gsiA1PartitionKey", .eqS ("post/" ++ uid)⟩,
        ⟨"gsiA1SortKey", .beginsW (PostStatus.COMPLETED ++ "/")⟩] : List KeyCond).all
        (fun c => c.eval it)) = FfsManager.isActiveStory uid := by
    funext it
    rfl
  have hfilt : (fun it : PostItem =>
      if optTruthy (some pid) = true then !(it.postId == (some pid).getD "") else true) =
      (fun x : PostItem => !(x.postId == pid)) := by
    funext x
    simp [optTruthy, hpid]
  unfold PostDynamo.get_next_completed_post_to_expire Store.query FfsManager.activeStories
  simp only [hfun, hfilt]

/-- Specification of the next-to-expire query: empty exactly when no other
active story exists, else a minimal one. -/
theorem get_next_spec (s : Store) (uid pid : String) (hpid : pid ≠ "") :
    (PostDynamo.get_next_completed_post_to_expire s uid (some pid) = none →
      (FfsManager.activeStories s uid).filter (fun x => !(x.postId == pid)) = []) ∧
    ∀ q, PostDynamo.get_next_completed_post_to_expire s uid (some pid) = some q →
      q ∈ (FfsManager.activeStories s uid).filter (fun x => !(x.postId == pid)) ∧
      ∀ x ∈ (FfsManager.activeStories s uid).filter (fun x => !(x.postId == pid)),
        skRel GSI_A1 q x := by
  rw [get_next_eq s uid pid hpid]
  exact ⟨fun h => insertionSort_head_none h, fun q h => insertionSort_head_min h⟩

/-- A well-formed active story is COMPLETED, carries its expiry, and its
sort key is the qualified expiry. -/
theorem active_wf_elim (uid : String) (x : PostItem) (hwfi : FfsManager.WfItem x)
    (hact : FfsManager.isActiveStory uid x = true) :
    ∃ eb, x.expiresAt = some eb ∧
      x.gsiA1SortKey = some (PostStatus.COMPLETED ++ "/" ++ eb) ∧
      x.postStatus = PostStatus.COMPLETED := by
  unfold FfsManager.isActiveStory at hact
  rw [inGsi_A1] at hact
  rcases hpk : x.gsiA1PartitionKey with _ | pk <;> rcases hsk : x.gsiA1SortKey with _ | sk <;>
    rw [hpk, hsk] at hact <;> try simp at hact
  rcases hwfi.2 with h0 | h1
  · rw [hsk] at h0
    cases h0
  · rw [hsk] at h1
    rcases hea : x.expiresAt with _ | eb
    · rw [hea] at h1
      cases h1
    · rw [hea] at h1
      simp only [Option.map_some'] at h1
      have hskeq : sk = x.postStatus ++ "/" ++ eb := by
        exact Option.some.inj h1
      simp only [KeyCond.eval, attr_gsiA1Pk, attr_gsiA1Sk, hpk, hsk] at hact
      have hpre : (PostStatus.COMPLETED ++ "/" : String).data <+: sk.data := by
        rcases hact with ⟨-, h2⟩
        simp at h2
        rw [String.data_append, show ("/" : String).data = ['/'] from by decide]
        exact h2
      have hstat : x.postStatus = PostStatus.COMPLETED := by
        apply status_of_beginsW x.postStatus eb hwfi.1
        rw [← completedSlash]
        rw [← hskeq]
        exact hpre
      exact ⟨eb, rfl, by rw [hskeq, hstat], hstat⟩

/-- Introduction of the index order from sort keys. -/
theorem skRel_A1_intro (a b : PostItem) (ska skb : String)
    (ha : a.gsiA1SortKey = some ska) (hb : b.gsiA1SortKey = some skb)
    (hle : strLe ska skb) : skRel GSI_A1 a b := by
  unfold strLe at hle
  simp [skRel, skOf, GSI_A1, attr_gsiA1Sk, ha, hb, AttrV.leB, hle]

/-- Elimination of the index order to sort keys. -/
theorem skRel_A1_elim (a b : PostItem) (ska skb : String)
    (ha : a.gsiA1SortKey = some ska) (hb : b.gsiA1SortKey = some skb)
    (h : skRel GSI_A1 a b) : strLe ska skb := by
  unfold strLe
  simp [skRel, skOf, GSI_A1, attr_gsiA1Sk, ha, hb, AttrV.leB] at h
  exact h

/-- The expiry update of a record on itself stays well-formed. -/
theorem wfItem_expiryUpd (pi : PostItem) (ea : Ts) (h : FfsManager.WfItem pi) :
    FfsManager.WfItem (PostDynamo.expiryUpd pi ea pi) := by
  refine ⟨h.1, Or.inr ?_⟩
  simp [PostDynamo.expiryUpd]

/-- The expiry removal of a record stays well-formed. -/
theorem wfItem_expiryClear (it : PostItem) (h : FfsManager.WfItem it) :
    FfsManager.WfItem (PostDynamo.expiryClear it) :=
  ⟨h.1, Or.inl rfl⟩

/-- The store mutation of an event preserves store well-formedness. -/
theorem wfStore_applyMut (s : Store) (op : FfsManager.StoryOp)
    (hwf : FfsManager.WfStore s) : FfsManager.WfStore (FfsManager.applyMut s op) := by
  rcases op with ⟨pid, ea⟩ | pid
  · simp only [FfsManager.applyMut]
    rcases hget : s.get pid with _ | it
    · exact hwf
    · have hpostid : it.postId = pid := get_postId s hwf.1 pid it hget
      show FfsManager.WfStore (PostDynamo.set_expires_at s it ea).1
      unfold PostDynamo.set_expires_at clientUpdateItem
      rw [hpostid, hget]
      simp only [beq_self_eq_true, if_true]
      constructor
      · exact wf_put s pid _ hwf.1 hpostid
      · intro x hx
        rw [store_values_put] at hx
        rcases List.mem_cons.mp hx with rfl | hmem
        · refine wfItem_expiryUpd it ea (hwf.2 it ?_)
          unfold Store.values
          exact List.mem_map_of_mem _ (store_get_mem s pid it hget)
        · exact hwf.2 x (values_filter_subset s _ x hmem)
  · simp only [FfsManager.applyMut]
    unfold PostDynamo.remove_expires_at clientUpdateItem
    rcases hget : s.get pid with _ | it
    · exact hwf
    · simp only [if_true]
      constructor
      · exact wf_put s pid _ hwf.1 (get_postId s hwf.1 pid it hget)
      · intro x hx
        rw [store_values_put] at hx
        rcases List.mem_cons.mp hx with rfl | hmem
        · refine wfItem_expiryClear it (hwf.2 it ?_)
          unfold Store.values
          exact List.mem_map_of_mem _ (store_get_mem s pid it hget)
        · exact hwf.2 x (values_filter_subset s _ x hmem)

/-- Pointer correctness from a known active story list. -/
theorem ptrOk_of_list (s : Store) (uid : String) (l : List PostItem) (res : Option PostItem)
    (hl : FfsManager.activeStories s uid = l)
    (h : match res with
      | none => l = []
      | some p => p ∈ l ∧ ∀ q ∈ l, skRel GSI_A1 p q) :
    FfsManager.PtrOk s uid res := by
  rcases res with _ | p
  · unfold FfsManager.PtrOk
    rw [hl]
    exact h
  · unfold FfsManager.PtrOk
    rw [hl]
    exact h

/-- Core of the removal case: the derived pointer is correct over the
remaining stories. -/
theorem remExp_ptrOk_core (L : List PostItem) (next : Option PostItem)
    (hnone : next = none → L = [])
    (hsome : ∀ nx, next = some nx → nx ∈ L ∧ ∀ x ∈ L, skRel GSI_A1 nx x) :
    match next with
    | none => L = []
    | some p => p ∈ L ∧ ∀ q ∈ L, skRel GSI_A1 p q := by
  cases next with
  | none => exact hnone rfl
  | some nx => exact hsome nx rfl

/-- Core of the set case: merging the payload with the queried next story
yields a minimal element of the new active set. -/
theorem setExp_ptrOk_core (sn : PostItem) (eaiso : String) (L : List PostItem)
    (next res : Option PostItem)
    (hsnsk : sn.gsiA1SortKey = some (PostStatus.COMPLETED ++ "/" ++ eaiso))
    (hLwf : ∀ x ∈ L, ∃ eb, x.expiresAt = some eb ∧
      x.gsiA1SortKey = some (PostStatus.COMPLETED ++ "/" ++ eb))
    (hnone : next = none → L = [])
    (hsome : ∀ nx, next = some nx → nx ∈ L ∧ ∀ x ∈ L, skRel GSI_A1 nx x)
    (hres : (next = none ∧ res = some sn) ∨
      (∃ nx eb, next = some nx ∧ nx.expiresAt = some eb ∧
        ((strLt eaiso eb ∧ res = some sn) ∨ (¬ strLt eaiso eb ∧ res = some nx)))) :
    match res with
    | none => sn :: L = []
    | some p => p ∈ sn :: L ∧ ∀ q ∈ sn :: L, skRel GSI_A1 p q := by
  rcases hres with ⟨hn, rfl⟩ | ⟨nx, eb, hn, hnexp, hcase⟩
  · have hL := hnone hn
    subst hL
    exact ⟨List.mem_cons_self _ _, by
      intro q hq
      rcases List.mem_cons.mp hq with rfl | h
      · exact skRel_refl _ _
      · cases h⟩
  · obtain ⟨hnxL, hmin⟩ := hsome nx hn
    obtain ⟨eb2, hnx2, hnxsk⟩ := hLwf nx hnxL
    have heb : eb2 = eb := by
      rw [hnx2] at hnexp
      exact Option.some.inj hnexp
    subst heb
    rcases hcase with ⟨hlt, rfl⟩ | ⟨hnlt, rfl⟩
    · refine ⟨List.mem_cons_self _ _, ?_⟩
      intro q hq
      rcases List.mem_cons.mp hq with rfl | hqL
      · exact skRel_refl _ _
      · have h1 : skRel GSI_A1 sn nx := by
          refine skRel_A1_intro sn nx _ _ hsnsk hnxsk ?_
          exact (strLe_qualified_iff _ _ _).mpr (le_of_lt hlt)
        exact IsTrans.trans sn nx q h1 (hmin q hqL)
    · refine ⟨List.mem_cons_of_mem _ hnxL, ?_⟩
      intro q hq
      rcases List.mem_cons.mp hq with rfl | hqL
      · refine skRel_A1_intro nx q _ _ hnxsk hsnsk ?_
        refine (strLe_qualified_iff _ _ _).mpr ?_
        exact not_lt.mp hnlt
      · exact hmin q hqL

/-- Zeta-reduced evaluation of the candidate derivation. -/
theorem derive_eq (qs : Store) (uid pid : String) (snn : Option PostItem) :
    FfsManager.derive_first_story qs uid pid snn =
      match snn, PostDynamo.get_next_completed_post_to_expire qs uid (some pid) with
      | none, nxx => nxx
      | some sn, none => some sn
      | some sn, some nx =>
        match sn.expiresAt, nx.expiresAt with
        | some ea2, some eb2 => if strLt ea2 eb2 then some sn else some nx
        | _, _ => some nx := rfl

/-- Filtering twice with the same predicate filters once. -/
theorem listFilter_idem {α : Type} (l : List α) (p : α → Bool) :
    (l.filter p).filter p = l.filter p := by
  rw [List.filter_filter]
  exact List.filter_congr (fun x hx => Bool.and_self (p x))

/-- Every entry of the excluded active story list carries its expiry and
the qualified sort key. -/
theorem activeL_wf (uid : String) (s : Store) (hwf : FfsManager.WfStore s) (pid : String) :
    ∀ x ∈ (FfsManager.activeStories s uid).filter (fun x => !(x.postId == pid)),
      ∃ eb, x.expiresAt = some eb ∧
        x.gsiA1SortKey = some (PostStatus.COMPLETED ++ "/" ++ eb) := by
  intro x hx
  have hx2 : x ∈ FfsManager.activeStories s uid := List.mem_of_mem_filter hx
  have hmem : x ∈ Store.values s ∧ FfsManager.isActiveStory uid x = true := by
    unfold FfsManager.activeStories at hx2
    exact List.mem_filter.mp hx2
  obtain ⟨eb, h1, h2, -⟩ := active_wf_elim uid x (hwf.2 x hmem.1) hmem.2
  exact ⟨eb, h1, h2⟩

/-- Re-updating the expiry of an already updated record changes nothing. -/
theorem expiryUpd_idem (it : PostItem) (ea : Ts) :
    PostDynamo.expiryUpd (PostDynamo.expiryUpd it ea it) ea (PostDynamo.expiryUpd it ea it) =
      PostDynamo.expiryUpd it ea it := rfl

/-- Evaluation of the mutation of a valid set event. -/
theorem applyMut_setExp (s : Store) (hwf : Store.Wf s) (pid : String) (ea : Ts)
    (it : PostItem) (hget : s.get pid = some it) :
    FfsManager.applyMut s (.setExp pid ea) = s.put pid (PostDynamo.expiryUpd it ea it) := by
  have hpostid : it.postId = pid := get_postId s hwf pid it hget
  simp only [FfsManager.applyMut]
  rw [hget]
  show (PostDynamo.set_expires_at s it ea).1 = _
  unfold PostDynamo.set_expires_at clientUpdateItem
  rw [hpostid, hget]
  simp only [beq_self_eq_true, if_true]

/-- Evaluation of the mutation of a valid remove event. -/
theorem applyMut_remExp (s : Store) (pid : String) (it : PostItem)
    (hget : s.get pid = some it) :
    FfsManager.applyMut s (.remExp pid) = s.put pid (PostDynamo.expiryClear it) := by
  simp only [FfsManager.applyMut]
  unfold PostDynamo.remove_expires_at clientUpdateItem
  rw [hget]
  simp only [if_true]

/-- Evaluation of the refresh of a set event. -/
theorem applyRefresh_setExp (uid : String) (s : Store) (ptr : Option PostItem) (pid : String)
    (ea : Ts) (it : PostItem) (hget : s.get pid = some it) (huid : it.postedByUserId = uid)
    (hpostid : it.postId = pid) :
    FfsManager.applyRefresh s ptr (.setExp pid ea) =
      FfsManager.derive_first_story s uid pid (some (PostDynamo.expiryUpd it ea it)) := by
  simp only [FfsManager.applyRefresh]
  rw [hget]
  show FfsManager.derive_first_story s (PostDynamo.expiryUpd it ea it).postedByUserId
      (PostDynamo.expiryUpd it ea it).postId (some (PostDynamo.expiryUpd it ea it)) = _
  rw [show (PostDynamo.expiryUpd it ea it).postedByUserId = uid from huid,
    show (PostDynamo.expiryUpd it ea it).postId = pid from hpostid]

/-- Evaluation of the refresh of a remove event. -/
theorem applyRefresh_remExp (uid : String) (s : Store) (ptr : Option PostItem) (pid : String)
    (it : PostItem) (hget : s.get pid = some it) (huid : it.postedByUserId = uid)
    (hpostid : it.postId = pid) :
    FfsManager.applyRefresh s ptr (.remExp pid) =
      FfsManager.derive_first_story s uid pid none := by
  simp only [FfsManager.applyRefresh]
  rw [hget]
  show FfsManager.derive_first_story s it.postedByUserId it.postId none = _
  rw [huid, hpostid]

/-- The store half of one adjacent event pair is the mutation. -/
theorem runEventPair_fst (st : Store × Option PostItem) (ev : FfsManager.StoryOp × Bool) :
    (FfsManager.runEventPair st ev).1 = FfsManager.applyMut st.1 ev.1 := by
  rcases ev with ⟨op, b⟩
  rcases b <;> rfl

/-- The pointer half of a refresh-first pair. -/
theorem runEventPair_snd_true (st : Store × Option PostItem) (op : FfsManager.StoryOp) :
    (FfsManager.runEventPair st (op, true)).2 = FfsManager.applyRefresh st.1 st.2 op := rfl

/-- The pointer half of a mutation-first pair. -/
theorem runEventPair_snd_false (st : Store × Option PostItem) (op : FfsManager.StoryOp) :
    (FfsManager.runEventPair st (op, false)).2 =
      FfsManager.applyRefresh (FfsManager.applyMut st.1 op) st.2 op := rfl

/-- Pointer correctness of the derivation for a set event. -/
theorem derive_setExp_ptrOk (uid pid eaiso : String) (qs s2 : Store) (newIt : PostItem)
    (L : List PostItem) (hpid : pid ≠ "")
    (hq : (FfsManager.activeStories qs uid).filter (fun x => !(x.postId == pid)) = L)
    (hact : FfsManager.activeStories s2 uid = newIt :: L)
    (hexp : newIt.expiresAt = some eaiso)
    (hsk : newIt.gsiA1SortKey = some (PostStatus.COMPLETED ++ "/" ++ eaiso))
    (hLwf : ∀ x ∈ L, ∃ eb, x.expiresAt = some eb ∧
      x.gsiA1SortKey = some (PostStatus.COMPLETED ++ "/" ++ eb)) :
    FfsManager.PtrOk s2 uid (FfsManager.derive_first_story qs uid pid (some newIt)) := by
  have spec := get_next_spec qs uid pid hpid
  rw [hq] at spec
  rcases hn : PostDynamo.get_next_completed_post_to_expire qs uid (some pid) with _ | nx
  · have heval : FfsManager.derive_first_story qs uid pid (some newIt) = some newIt := by
      rw [derive_eq, hn]
    rw [heval]
    exact ptrOk_of_list s2 uid (newIt :: L) (some newIt) hact
      (setExp_ptrOk_core newIt eaiso L none (some newIt) hsk hLwf
        (fun _ => spec.1 hn) (fun nx2 h => Option.noConfusion h) (Or.inl ⟨rfl, rfl⟩))
  · obtain ⟨hnxL, hmin⟩ := spec.2 nx hn
    obtain ⟨eb, hnxexp, hnxsk⟩ := hLwf nx hnxL
    have heval : FfsManager.derive_first_story qs uid pid (some newIt) =
        if strLt eaiso eb then some newIt else some nx := by
      rw [derive_eq, hn]
      show (match newIt.expiresAt, nx.expiresAt with
        | some ea2, some eb2 => if strLt ea2 eb2 then some newIt else some nx
        | _, _ => some nx) = if strLt eaiso eb then some newIt else some nx
      rw [hexp, hnxexp]
    rw [heval]
    by_cases hlt : strLt eaiso eb
    · rw [if_pos hlt]
      exact ptrOk_of_list s2 uid (newIt :: L) (some newIt) hact
        (setExp_ptrOk_core newIt eaiso L (some nx) (some newIt) hsk hLwf
          (fun h => Option.noConfusion h)
          (fun nx2 h => by cases Option.some.inj h; exact ⟨hnxL, hmin⟩)
          (Or.inr ⟨nx, eb, rfl, hnxexp, Or.inl ⟨hlt, rfl⟩⟩))
    · rw [if_neg hlt]
      exact ptrOk_of_list s2 uid (newIt :: L) (some nx) hact
        (setExp_ptrOk_core newIt eaiso L (some nx) (some nx) hsk hLwf
          (fun h => Option.noConfusion h)
          (fun nx2 h => by cases Option.some.inj h; exact ⟨hnxL, hmin⟩)
          (Or.inr ⟨nx, eb, rfl, hnxexp, Or.inr ⟨hlt, rfl⟩⟩))

/-- Pointer correctness of the derivation for a remove event. -/
theorem derive_remExp_ptrOk (uid pid : String) (qs s2 : Store) (L : List PostItem)
    (hpid : pid ≠ "")
    (hq : (FfsManager.activeStories qs uid).filter (fun x => !(x.postId == pid)) = L)
    (hact : FfsManager.activeStories s2 uid = L) :
    FfsManager.PtrOk s2 uid (FfsManager.derive_first_story qs uid pid none) := by
  have spec := get_next_spec qs uid pid hpid
  rw [hq] at spec
  rcases hn : PostDynamo.get_next_completed_post_to_expire qs uid (some pid) with _ | nx
  · have heval : FfsManager.derive_first_story qs uid pid none = none := by
      rw [derive_eq, hn]
    rw [heval]
    exact ptrOk_of_list s2 uid L none hact (spec.1 hn)
  · obtain ⟨hnxL, hmin⟩ := spec.2 nx hn
    have heval : FfsManager.derive_first_story qs uid pid none = some nx := by
      rw [derive_eq, hn]
    rw [heval]
    exact ptrOk_of_list s2 uid L (some nx) hact ⟨hnxL, hmin⟩

/-- After one adjacent event pair the pointer is correct for the mutated
store, whichever side the refresh ran on. -/
theorem runEventPair_preserves (uid : String) (s : Store) (ptr : Option PostItem)
    (ev : FfsManager.StoryOp × Bool) (hwf : FfsManager.WfStore s)
    (hok : FfsManager.EventOk uid s ev.1) :
    FfsManager.PtrOk (FfsManager.applyMut s ev.1) uid
      ((FfsManager.runEventPair (s, ptr) ev).2) := by
  rcases ev with ⟨op, b⟩
  rcases op with ⟨pid, ea⟩ | pid
  · obtain ⟨hpid, it, hget, huid, hst⟩ := eventOk_setExp uid s pid ea hok
    have hpostid : it.postId = pid := get_postId s hwf.1 pid it hget
    have hmut : FfsManager.applyMut s (.setExp pid ea) =
        s.put pid (PostDynamo.expiryUpd it ea it) := applyMut_setExp s hwf.1 pid ea it hget
    have hactive : FfsManager.isActiveStory uid (PostDynamo.expiryUpd it ea it) = true :=
      isActive_expiryUpd uid it ea huid hst
    have hact : FfsManager.activeStories (s.put pid (PostDynamo.expiryUpd it ea it)) uid =
        PostDynamo.expiryUpd it ea it ::
          (FfsManager.activeStories s uid).filter (fun x => !(x.postId == pid)) := by
      rw [activeStories_put s pid _ hwf.1 uid, hactive]
      simp
    have hexp2 : (PostDynamo.expiryUpd it ea it).expiresAt = some ea.iso := rfl
    have hsk2 : (PostDynamo.expiryUpd it ea it).gsiA1SortKey =
        some (PostStatus.COMPLETED ++ "/" ++ ea.iso) := by
      rw [show (PostDynamo.expiryUpd it ea it).gsiA1SortKey =
        some (it.postStatus ++ "/" ++ ea.iso) from rfl, hst]
    have hLwf := activeL_wf uid s hwf pid
    cases b with
    | true =>
      show FfsManager.PtrOk (FfsManager.applyMut s (.setExp pid ea)) uid
        (FfsManager.applyRefresh s ptr (.setExp pid ea))
      rw [hmut, applyRefresh_setExp uid s ptr pid ea it hget huid hpostid]
      exact derive_setExp_ptrOk uid pid ea.iso s
        (s.put pid (PostDynamo.expiryUpd it ea it)) (PostDynamo.expiryUpd it ea it)
        ((FfsManager.activeStories s uid).filter (fun x => !(x.postId == pid)))
        hpid rfl hact hexp2 hsk2 hLwf
    | false =>
      show FfsManager.PtrOk (FfsManager.applyMut s (.setExp pid ea)) uid
        (FfsManager.applyRefresh (FfsManager.applyMut s (.setExp pid ea)) ptr (.setExp pid ea))
      rw [hmut]
      have hget2 : (s.put pid (PostDynamo.expiryUpd it ea it)).get pid =
          some (PostDynamo.expiryUpd it ea it) := store_get_put_self _ _ _
      rw [applyRefresh_setExp uid (s.put pid (PostDynamo.expiryUpd it ea it)) ptr pid ea
        (PostDynamo.expiryUpd it ea it) hget2
        (show (PostDynamo.expiryUpd it ea it).postedByUserId = uid from huid)
        (show (PostDynamo.expiryUpd it ea it).postId = pid from hpostid),
        expiryUpd_idem]
      have hq2 : (FfsManager.activeStories (s.put pid (PostDynamo.expiryUpd it ea it)) uid).filter
          (fun x => !(x.postId == pid)) =
          (FfsManager.activeStories s uid).filter (fun x => !(x.postId == pid)) := by
        rw [hact, List.filter_cons]
        have hcond : (!((PostDynamo.expiryUpd it ea it).postId == pid)) = false := by
          simp [show (PostDynamo.expiryUpd it ea it).postId = pid from hpostid]
        rw [hcond, if_neg (by decide)]
        exact listFilter_idem _ _
      exact derive_setExp_ptrOk uid pid ea.iso (s.put pid (PostDynamo.expiryUpd it ea it))
        (s.put pid (PostDynamo.expiryUpd it ea it)) (PostDynamo.expiryUpd it ea it)
        ((FfsManager.activeStories s uid).filter (fun x => !(x.postId == pid)))
        hpid hq2 hact hexp2 hsk2 hLwf
  · obtain ⟨hpid, it, hget, huid⟩ := eventOk_remExp uid s pid hok
    have hpostid : it.postId = pid := get_postId s hwf.1 pid it hget
    have hmut : FfsManager.applyMut s (.remExp pid) = s.put pid (PostDynamo.expiryClear it) :=
      applyMut_remExp s pid it hget
    have hact : FfsManager.activeStories (s.put pid (PostDynamo.expiryClear it)) uid =
        (FfsManager.activeStories s uid).filter (fun x => !(x.postId == pid)) := by
      rw [activeStories_put s pid _ hwf.1 uid, notActive_expiryClear]
      simp
    cases b with
    | true =>
      show FfsManager.PtrOk (FfsManager.applyMut s (.remExp pid)) uid
        (FfsManager.applyRefresh s ptr (.remExp pid))
      rw [hmut, applyRefresh_remExp uid s ptr pid it hget huid hpostid]
      exact derive_remExp_ptrOk uid pid s (s.put pid (PostDynamo.expiryClear it))
        ((FfsManager.activeStories s uid).filter (fun x => !(x.postId == pid))) hpid rfl hact
    | false =>
      show FfsManager.PtrOk (FfsManager.applyMut s (.remExp pid)) uid
        (FfsManager.applyRefresh (FfsManager.applyMut s (.remExp pid)) ptr (.remExp pid))
      rw [hmut]
      have hget2 : (s.put pid (PostDynamo.expiryClear it)).get pid =
          some (PostDynamo.expiryClear it) := store_get_put_self _ _ _
      rw [applyRefresh_remExp uid (s.put pid (PostDynamo.expiryClear it)) ptr pid
        (PostDynamo.expiryClear it) hget2
        (show (PostDynamo.expiryClear it).postedByUserId = uid from huid)
        (show (PostDynamo.expiryClear it).postId = pid from hpostid)]
      have hq2 : (FfsManager.activeStories (s.put pid (PostDynamo.expiryClear it)) uid).filter
          (fun x => !(x.postId == pid)) =
          (FfsManager.activeStories s uid).filter (fun x => !(x.postId == pid)) := by
        rw [hact]
        exact listFilter_idem _ _
      exact derive_remExp_ptrOk uid pid (s.put pid (PostDynamo.expiryClear it))
        (s.put pid (PostDynamo.expiryClear it))
        ((FfsManager.activeStories s uid).filter (fun x => !(x.postId == pid))) hpid hq2 hact

/-- Splitting validity of an event sequence at its head. -/
theorem eventsOk_cons (uid : String) (s : Store) (ev : FfsManager.StoryOp × Bool)
    (evs : List (FfsManager.StoryOp × Bool)) (h : FfsManager.EventsOk uid s (ev :: evs)) :
    FfsManager.EventOk uid s ev.1 ∧
      FfsManager.EventsOk uid (FfsManager.applyMut s ev.1) evs := by
  have h2 : (FfsManager.eventOkB uid s ev.1 &&
      FfsManager.eventsOkB uid (FfsManager.applyMut s ev.1) evs) = true := h
  simp only [Bool.and_eq_true] at h2
  exact h2

/-- C3: counterexample to the unrestricted ANY-order reading of the
convergence claim.  With two active stories of one owner and the two
corresponding remove events, the interleaving that delivers both refresh
calls before either store mutation is a sequential order of the events
and their refresh calls; it starts from a well-formed store and a correct
pointer, with both events valid, and ends with no active story, yet
leaves the pointer on a story, so the final pointer is not the
minimum-expiry active story (which is absent). -/
theorem ffs_any_order_counterexample :
    FfsManager.WfStore
      [("p1", sampleStory "p1" "u1" ⟨"2020-01-03", "01:00:00"⟩),
       ("p2", sampleStory "p2" "u1" ⟨"2020-01-03", "02:00:00"⟩)] ∧
    FfsManager.PtrOk
      [("p1", sampleStory "p1" "u1" ⟨"2020-01-03", "01:00:00"⟩),
       ("p2", sampleStory "p2" "u1" ⟨"2020-01-03", "02:00:00"⟩)] "u1"
      (some (sampleStory "p1" "u1" ⟨"2020-01-03", "01:00:00"⟩)) ∧
    FfsManager.EventsOk "u1"
      [("p1", sampleStory "p1" "u1" ⟨"2020-01-03", "01:00:00"⟩),
       ("p2", sampleStory "p2" "u1" ⟨"2020-01-03", "02:00:00"⟩)]
      [(.remExp "p1", true), (.remExp "p2", true)] ∧
    FfsManager.activeStories
      (FfsManager.runSteps
        ([("p1", sampleStory "p1" "u1" ⟨"2020-01-03", "01:00:00"⟩),
          ("p2", sampleStory "p2" "u1" ⟨"2020-01-03", "02:00:00"⟩)],
         some (sampleStory "p1" "u1" ⟨"2020-01-03", "01:00:00"⟩))
        [.refresh (.remExp "p1"), .refresh (.remExp "p2"),
         .mutate (.remExp "p1"), .mutate (.remExp "p2")]).1 "u1" = [] ∧
    ¬ FfsManager.PtrOk
      (FfsManager.runSteps
        ([("p1", sampleStory "p1" "u1" ⟨"2020-01-03", "01:00:00"⟩),
          ("p2", sampleStory "p2" "u1" ⟨"2020-01-03", "02:00:00"⟩)],
         some (sampleStory "p1" "u1" ⟨"2020-01-03", "01:00:00"⟩))
        [.refresh (.remExp "p1"), .refresh (.remExp "p2"),
         .mutate (.remExp "p1"), .mutate (.remExp "p2")]).1 "u1"
      (FfsManager.runSteps
        ([("p1", sampleStory "p1" "u1" ⟨"2020-01-03", "01:00:00"⟩),
          ("p2", sampleStory "p2" "u1" ⟨"2020-01-03", "02:00:00"⟩)],
         some (sampleStory "p1" "u1" ⟨"2020-01-03", "01:00:00"⟩))
        [.refresh (.remExp "p1"), .refresh (.remExp "p2"),
         .mutate (.remExp "p1"), .mutate (.remExp "p2")]).2 := by
  decide

/-- C3 (amended): the convergence claim holds with each event's refresh
call adjacent to its store mutation, immediately before or immediately
after, chosen per event independently.  Starting from a story-engine
well-formed store and a correct pointer, after any finite sequence of
valid story set and remove events for the followed user the pointer is a
currently-active story minimal in the expiry index order (minimum
expiresAt), or absent when the followed user has no active story.  The
unrestricted interleaving of the original claim is refuted by the
counterexample above. -/
theorem ffs_adjacent_convergence (uid : String) (evs : List (FfsManager.StoryOp × Bool))
    (s : Store) (ptr : Option PostItem) (hwf : FfsManager.WfStore s)
    (hok : FfsManager.EventsOk uid s evs) (hptr : FfsManager.PtrOk s uid ptr) :
    FfsManager.PtrOk (FfsManager.runEventPairs (s, ptr) evs).1 uid
      (FfsManager.runEventPairs (s, ptr) evs).2 := by
  revert s ptr
  induction evs with
  | nil =>
    intro s ptr hwf hok hptr
    exact hptr
  | cons ev evs ih =>
    intro s ptr hwf hok hptr
    obtain ⟨hok1, hok2⟩ := eventsOk_cons uid s ev evs hok
    have hstep := runEventPair_preserves uid s ptr ev hwf hok1
    have hfst : (FfsManager.runEventPair (s, ptr) ev).1 = FfsManager.applyMut s ev.1 :=
      runEventPair_fst (s, ptr) ev
    have hpair : FfsManager.runEventPair (s, ptr) ev =
        (FfsManager.applyMut s ev.1, (FfsManager.runEventPair (s, ptr) ev).2) := by
      rw [← hfst]
    show FfsManager.PtrOk
        (FfsManager.runEventPairs (FfsManager.runEventPair (s, ptr) ev) evs).1 uid
        (FfsManager.runEventPairs (FfsManager.runEventPair (s, ptr) ev) evs).2
    rw [hpair]
    exact ih (FfsManager.applyMut s ev.1) ((FfsManager.runEventPair (s, ptr) ev).2)
      (wfStore_applyMut s ev.1 hwf) hok2 hstep

/-- Witness for the amended convergence theorem: a concrete remove and a
concrete set event, one refresh delivered before its mutation and one
after, starting from two active stories. -/
theorem ffs_adjacent_convergence_witness :
    FfsManager.WfStore
      [("p1", sampleStory "p1" "u1" ⟨"2020-01-03", "01:00:00"⟩),
       ("p2", sampleStory "p2" "u1" ⟨"2020-01-03", "02:00:00"⟩)] ∧
    FfsManager.EventsOk "u1"
      [("p1", sampleStory "p1" "u1" ⟨"2020-01-03", "01:00:00"⟩),
       ("p2", sampleStory "p2" "u1" ⟨"2020-01-03", "02:00:00"⟩)]
      [(.remExp "p1", true), (.setExp "p2" ⟨"2020-01-05", "05:00:00"⟩, false)] ∧
    FfsManager.PtrOk
      [("p1", sampleStory "p1" "u1" ⟨"2020-01-03", "01:00:00"⟩),
       ("p2", sampleStory "p2" "u1" ⟨"2020-01-03", "02:00:00"⟩)] "u1"
      (some (sampleStory "p1" "u1" ⟨"2020-01-03", "01:00:00"⟩)) ∧
    FfsManager.PtrOk
      (FfsManager.runEventPairs
        ([("p1", sampleStory "p1" "u1" ⟨"2020-01-03", "01:00:00"⟩),
          ("p2", sampleStory "p2" "u1" ⟨"2020-01-03", "02:00:00"⟩)],
         some (sampleStory "p1" "u1" ⟨"2020-01-03", "01:00:00"⟩))
        [(.remExp "p1", true), (.setExp "p2" ⟨"2020-01-05", "05:00:00"⟩, false)]).1 "u1"
      (FfsManager.runEventPairs
        ([("p1", sampleStory "p1" "u1" ⟨"2020-01-03", "01:00:00"⟩),
          ("p2", sampleStory "p2" "u1" ⟨"2020-01-03", "02:00:00"⟩)],
         some (sampleStory "p1" "u1" ⟨"2020-01-03", "01:00:00"⟩))
        [(.remExp "p1", true), (.setExp "p2" ⟨"2020-01-05", "05:00:00"⟩, false)]).2 :=
  ⟨by decide, by decide, by decide,
    ffs_adjacent_convergence "u1"
      [(.remExp "p1", true), (.setExp "p2" ⟨"2020-01-05", "05:00:00"⟩, false)]
      [("p1", sampleStory "p1" "u1" ⟨"2020-01-03", "01:00:00"⟩),
       ("p2", sampleStory "p2" "u1" ⟨"2020-01-03", "02:00:00"⟩)]
      (some (sampleStory "p1" "u1" ⟨"2020-01-03", "01:00:00"⟩))
      (by decide) (by decide) (by decide)⟩
